import Mathlib

/-!
Verification of the speech package of silero-vad-go (shared-model VAD).

The shallow embedding below follows `src/speech/shared_detector.go`.
The neural inference call (`DetectorContext.infer` in
`shared_infer_linux.go`) is an opaque external capability: it is modelled
as a parameter `infer : List Rat → List Rat → Rat × List Rat` mapping an
audio window and the context's recurrent state to a speech probability
and an updated recurrent state.  Go `float32`/`float64` arithmetic is
modelled over `Rat` (exact real-number semantics), Go `int` over `Int`,
and the fallible Go returns over `Except String`.  Each operation
returns the (possibly mutated) context together with its result, so that
error paths that leave the receiver untouched are expressible.
-/

namespace Speech

/-- Modelled from the spec: length of the per-context recurrent state
vector.  The declaration of `stateLen` lives outside `src/` (constants of
the parent package); the spec fixes it to 256 elements shaped 2×1×128,
matching the tensor dims `[2, 1, 128]` used in `shared_infer_linux.go`. -/
def stateLen : Nat := 256

/-- Modelled from the spec: length of the dead per-context `ctx` buffer.
Its declaration lives outside `src/`; the buffer is declared but never
read or written by the inference path (spec §9), so the value chosen
here is irrelevant to every claim. -/
def contextLen : Nat := 64

/-- Modelled from the spec: the configuration record (declared outside
`src/`).  Only the fields read by `shared_detector.go` are modelled;
`ModelPath` and `LogLevel` are irrelevant to correctness (spec §3). -/
structure DetectorConfig where
  SampleRate : Nat
  Threshold : Rat
  MinSilenceDurationMs : Nat
  SpeechPadMs : Nat
  deriving DecidableEq

/-- Modelled from the spec: one detected speech segment
(`{speech_start_at, speech_end_at}` in seconds); a zero `SpeechEndAt`
means "end not (yet) confirmed". -/
structure Segment where
  SpeechStartAt : Rat
  SpeechEndAt : Rat
  deriving DecidableEq

/-- Per-context mutable state of `DetectorContext` (shared_detector.go,
lines 28-35).  The `model` back-pointer is not carried: the shared
configuration is passed explicitly to each operation, which also makes
"the context holds no cached copy of the configuration" structural. -/
structure DetectorContext where
  state : List Rat
  ctx : List Rat
  currSample : Int
  triggered : Bool
  tempEnd : Int
  deriving DecidableEq

/-- The segmentation-relevant projection of a `DetectorContext`
(cursor, trigger flag, pending-silence marker). -/
structure SegState where
  currSample : Int
  triggered : Bool
  tempEnd : Int
  deriving DecidableEq

/-- `Detect`, lines 155-158: window size is 512 samples, or 256 when the
configured sample rate is 8000. -/
def windowSize (cfg : DetectorConfig) : Nat :=
  if cfg.SampleRate = 8000 then 256 else 512

/-- `Detect`, line 166: `minSilenceSamples := cfg.MinSilenceDurationMs *
cfg.SampleRate / 1000` (integer division on non-negative values). -/
def minSilenceSamples (cfg : DetectorConfig) : Nat :=
  cfg.MinSilenceDurationMs * cfg.SampleRate / 1000

/-- `Detect`, line 167: `speechPadSamples := cfg.SpeechPadMs *
cfg.SampleRate / 1000`. -/
def speechPadSamples (cfg : DetectorConfig) : Nat :=
  cfg.SpeechPadMs * cfg.SampleRate / 1000

/-- Error message of `Detect`/`IsSpeech`/`IsSpeechQuick` on inputs
shorter than one window (lines 161, 269, 315). -/
def notEnoughSamplesErr : String := "not enough samples"

/-- Error message of `Detect` when a segment end is confirmed with no
open segment (line 216). -/
def unexpectedSpeechEndErr : String := "unexpected speech end"

/-- The index sequence of the Go loop
`for i := 0; i < bound; i += w` starting from `i`, with `bound =
len(pcm) - windowSize`.  The `0 < w` conjunct only totalises the
function; every call site instantiates `w` with `windowSize cfg`,
which is 256 or 512. -/
def windowStartsAux (w bound i : Nat) : List Nat :=
  if _h : 0 < w ∧ i < bound then i :: windowStartsAux w bound (i + w) else []
termination_by bound - i
decreasing_by omega

/-- The windows the bulk loop of `Detect`/`IsSpeech`/`IsSpeechQuick`
iterates over: `pcm[i : i+windowSize]` for the loop indices.  The bound
`pcm.length - w` is the Go `len(pcm)-windowSize` (truncated subtraction
agrees with Go's int subtraction because the loop body is reached only
when `len(pcm) ≥ windowSize`, and both run zero iterations otherwise). -/
def windows (w : Nat) (pcm : List Rat) : List (List Rat) :=
  (windowStartsAux w (pcm.length - w) 0).map (fun i => (pcm.drop i).take w)

/-- Go `segments[len(segments)-1].SpeechEndAt = e` (line 219): set the
`SpeechEndAt` of the last segment of the list. -/
def setLastEnd : List Segment → Rat → List Segment
  | [], _ => []
  | [s], e => [{ s with SpeechEndAt := e }]
  | s :: r :: rest, e => s :: setLastEnd (r :: rest) e

/-- One iteration of the segmentation loop of `Detect` (lines 179-220),
for one window's speech probability: advance the cursor, cancel a
pending silence marker on speech, open a segment on an idle-to-speech
transition (clamping a negative padded start to 0), and on sufficient
silence while triggered confirm the last segment's end — or report
`unexpected speech end` if no segment is open.  Returns the updated
segmentation state and segment list, plus the error if any. -/
def segStep (cfg : DetectorConfig) (speechProb : Rat) (st0 : SegState)
    (segs0 : List Segment) : (SegState × List Segment) × Option String :=
  let w : Int := (windowSize cfg : Int)
  let st1 : SegState := { st0 with currSample := st0.currSample + w }
  let st2 : SegState :=
    if cfg.Threshold ≤ speechProb ∧ st1.tempEnd ≠ 0 then { st1 with tempEnd := 0 } else st1
  let tr : SegState × List Segment :=
    if cfg.Threshold ≤ speechProb ∧ st2.triggered = false then
      let speechStartAt : Rat :=
        ((st2.currSample - w - (speechPadSamples cfg : Int) : Int) : Rat) / (cfg.SampleRate : Rat)
      let speechStartAt : Rat := if speechStartAt < 0 then 0 else speechStartAt
      ({ st2 with triggered := true }, segs0 ++ [{ SpeechStartAt := speechStartAt, SpeechEndAt := 0 }])
    else (st2, segs0)
  let st3 := tr.1
  let segs1 := tr.2
  if speechProb < cfg.Threshold - 0.15 ∧ st3.triggered = true then
    let st4 : SegState :=
      if st3.tempEnd = 0 then { st3 with tempEnd := st3.currSample } else st3
    if st4.currSample - st4.tempEnd < (minSilenceSamples cfg : Int) then ((st4, segs1), none)
    else
      let speechEndAt : Rat :=
        ((st4.tempEnd + (speechPadSamples cfg : Int) : Int) : Rat) / (cfg.SampleRate : Rat)
      let st5 : SegState := { st4 with tempEnd := 0, triggered := false }
      if segs1.isEmpty then ((st5, segs1), some unexpectedSpeechEndErr)
      else ((st5, setLastEnd segs1 speechEndAt), none)
  else ((st3, segs1), none)

/-- The segmentation engine applied to a list of per-window speech
probabilities (the pure core of `Detect`'s loop; probabilities are
consumed in order, an error aborts with the state mutated so far, as the
Go method returns leaving the receiver's fields as they are). -/
def segLoop (cfg : DetectorConfig) : List Rat → SegState → List Segment →
    SegState × Except String (List Segment)
  | [], st, segs => (st, Except.ok segs)
  | p :: rest, st, segs =>
    match segStep cfg p st segs with
    | (pr, none) => segLoop cfg rest pr.1 pr.2
    | (pr, some e) => (pr.1, Except.error e)

/-- Project the segmentation state out of a context. -/
def segOf (dc : DetectorContext) : SegState :=
  { currSample := dc.currSample, triggered := dc.triggered, tempEnd := dc.tempEnd }

/-- Write a segmentation state back into a context. -/
def withSeg (dc : DetectorContext) (st : SegState) : DetectorContext :=
  { dc with currSample := st.currSample, triggered := st.triggered, tempEnd := st.tempEnd }

/-- The bulk loop of `Detect` (lines 170-221): for each window, run the
opaque inference (which reads and overwrites the context's recurrent
state in place, `shared_infer_linux.go` line 133), then fold the
returned probability into the segmentation engine. -/
def detectLoop (infer : List Rat → List Rat → Rat × List Rat) (cfg : DetectorConfig) :
    List (List Rat) → DetectorContext → List Segment →
    DetectorContext × Except String (List Segment)
  | [], dc, segs => (dc, Except.ok segs)
  | win :: rest, dc, segs =>
    let pr := infer win dc.state
    let dc1 : DetectorContext := { dc with state := pr.2 }
    match segStep cfg pr.1 (segOf dc1) segs with
    | (r, none) => detectLoop infer cfg rest (withSeg dc1 r.1) r.2
    | (r, some e) => (withSeg dc1 r.1, Except.error e)

/-- `DetectorContext.Detect` (lines 150-226).  The nil-receiver check is
not representable in the embedding; the `SharedModel` configuration is
the explicit `cfg` argument (read live at call time, never cached in the
context). -/
def Detect (infer : List Rat → List Rat → Rat × List Rat) (cfg : DetectorConfig)
    (pcm : List Rat) (dc : DetectorContext) :
    DetectorContext × Except String (List Segment) :=
  if pcm.length < windowSize cfg then (dc, Except.error notEnoughSamplesErr)
  else detectLoop infer cfg (windows (windowSize cfg) pcm) dc []

/-- `DetectorContext.Reset` (lines 229-245): zero the cursor, trigger
flag, pending-silence marker, recurrent state and `ctx` buffer. -/
def Reset (dc : DetectorContext) : DetectorContext :=
  { dc with currSample := 0, triggered := false, tempEnd := 0,
            state := List.replicate stateLen 0, ctx := List.replicate contextLen 0 }

/-- `SharedModel.NewContext` (lines 115-119): the Go zero value of the
per-context state. -/
def newContext : DetectorContext :=
  { state := List.replicate stateLen 0, ctx := List.replicate contextLen 0,
    currSample := 0, triggered := false, tempEnd := 0 }

/-- `SharedModel.GetConfig` (lines 143-147): a snapshot read of the
shared configuration. -/
def GetConfig (cfg : DetectorConfig) : DetectorConfig := cfg

/-- `DetectorContext.SetThreshold` (lines 248-254): mutate the shared
configuration's threshold, all other fields untouched. -/
def SetThreshold (cfg : DetectorConfig) (value : Rat) : DetectorConfig :=
  { cfg with Threshold := value }

/-- The scan loop of `IsSpeech` (lines 283-296): return true on the
first window whose probability meets the threshold. -/
def isSpeechLoop (infer : List Rat → List Rat → Rat × List Rat) (cfg : DetectorConfig) :
    List (List Rat) → DetectorContext → DetectorContext × Except String Bool
  | [], dc => (dc, Except.ok false)
  | win :: rest, dc =>
    let pr := infer win dc.state
    let dc1 : DetectorContext :=
      { dc with state := pr.2, currSample := dc.currSample + (windowSize cfg : Int) }
    if cfg.Threshold ≤ pr.1 then (dc1, Except.ok true)
    else isSpeechLoop infer cfg rest dc1

/-- `DetectorContext.IsSpeech` (lines 258-300): length guard, then reset
of cursor/trigger/marker/recurrent state (the `ctx` buffer is NOT reset,
unlike `Reset`), then the scan loop. -/
def IsSpeech (infer : List Rat → List Rat → Rat × List Rat) (cfg : DetectorConfig)
    (pcm : List Rat) (dc : DetectorContext) : DetectorContext × Except String Bool :=
  if pcm.length < windowSize cfg then (dc, Except.error notEnoughSamplesErr)
  else
    isSpeechLoop infer cfg (windows (windowSize cfg) pcm)
      { dc with currSample := 0, triggered := false, tempEnd := 0,
                state := List.replicate stateLen 0 }

/-- The scan loop of `IsSpeechQuick` (lines 335-352): as `isSpeechLoop`
but also bounded by `windowCount < maxWindows` in the loop condition. -/
def quickLoop (infer : List Rat → List Rat → Rat × List Rat) (cfg : DetectorConfig) :
    List (List Rat) → Int → Int → DetectorContext → DetectorContext × Except String Bool
  | [], _, _, dc => (dc, Except.ok false)
  | win :: rest, maxW, wc, dc =>
    if wc < maxW then
      let pr := infer win dc.state
      let dc1 : DetectorContext :=
        { dc with state := pr.2, currSample := dc.currSample + (windowSize cfg : Int) }
      if cfg.Threshold ≤ pr.1 then (dc1, Except.ok true)
      else quickLoop infer cfg rest maxW (wc + 1) dc1
    else (dc, Except.ok false)

/-- `DetectorContext.IsSpeechQuick` (lines 304-356): length guard, a
non-positive `maxWindows` defaults to 5, state reset as in `IsSpeech`,
then the capped scan loop. -/
def IsSpeechQuick (infer : List Rat → List Rat → Rat × List Rat) (cfg : DetectorConfig)
    (pcm : List Rat) (maxWindows : Int) (dc : DetectorContext) :
    DetectorContext × Except String Bool :=
  if pcm.length < windowSize cfg then (dc, Except.error notEnoughSamplesErr)
  else
    let mw : Int := if maxWindows ≤ 0 then 5 else maxWindows
    quickLoop infer cfg (windows (windowSize cfg) pcm) mw 0
      { dc with currSample := 0, triggered := false, tempEnd := 0,
                state := List.replicate stateLen 0 }

/-- The sequence of speech probabilities an inference capability yields
on a window list, threading the recurrent state exactly as the loop of
`Detect` does. -/
def inferTrace (infer : List Rat → List Rat → Rat × List Rat) :
    List (List Rat) → List Rat → List Rat
  | [], _ => []
  | win :: rest, s =>
    let pr := infer win s
    pr.1 :: inferTrace infer rest pr.2

/-- The configuration of the spec's §8 worked scenario:
sample_rate=16000, threshold=0.5, min_silence_duration_ms=100,
speech_pad_ms=30. -/
def scenarioCfg : DetectorConfig :=
  { SampleRate := 16000, Threshold := 1/2, MinSilenceDurationMs := 100, SpeechPadMs := 30 }

/-- An 8 kHz configuration (window size 256), used for small concrete
runs. -/
def lowRateCfg : DetectorConfig :=
  { SampleRate := 8000, Threshold := 1/2, MinSilenceDurationMs := 100, SpeechPadMs := 30 }

/-- Pairwise monotonicity of segment start times in output order. -/
def startsMono (segs : List Segment) : Prop :=
  segs.Pairwise (fun a b => a.SpeechStartAt ≤ b.SpeechStartAt)


/-- An inference capability returning a constant probability and an
empty recurrent state, for concrete runs. -/
def constInfer (p : Rat) : List Rat → List Rat → Rat × List Rat :=
  fun _ _ => (p, [])

/-- An inference capability whose probability depends on the length of
the recurrent state (which it grows by one each call), giving full
control of the probability trace on concrete runs. -/
def lengthProbeInfer (hi lo : Rat) (a b : Nat) : List Rat → List Rat → Rat × List Rat :=
  fun _ s => (if s.length = a ∨ s.length = b then hi else lo, s ++ [0])

/-- The clamped padded start timestamp `Detect` records when a segment
opens with the cursor already advanced to `c` (lines 187-192). -/
def speechStartVal (cfg : DetectorConfig) (c : Int) : Rat :=
  max 0 (((c - (windowSize cfg : Int) - (speechPadSamples cfg : Int) : Int) : Rat) / (cfg.SampleRate : Rat))

/-- The padded end timestamp `Detect` records when it confirms a
segment end at silence marker `te` (line 210). -/
def speechEndVal (cfg : DetectorConfig) (te : Int) : Rat :=
  ((te + (speechPadSamples cfg : Int) : Int) : Rat) / (cfg.SampleRate : Rat)

/-- The inductive invariant of the segmentation loop, from a fresh (or
untriggered) context: segment starts are non-negative, non-decreasing,
bounded by the clamped padded start at the current cursor; confirmed
ends exceed their starts; while triggered, the last segment is open and
its start is below the (scaled) cursor, and a set silence marker also
bounds the last start. -/
def Inv (cfg : DetectorConfig) (st : SegState) (segs : List Segment) : Prop :=
  0 ≤ st.currSample ∧
  (∀ s ∈ segs, 0 ≤ s.SpeechStartAt) ∧
  startsMono segs ∧
  (∀ s ∈ segs, s.SpeechEndAt ≠ 0 → s.SpeechStartAt < s.SpeechEndAt) ∧
  (∀ s ∈ segs, s.SpeechStartAt ≤ speechStartVal cfg st.currSample) ∧
  (st.triggered = true →
    ∃ pre last, segs = pre ++ [last] ∧ last.SpeechEndAt = 0 ∧
      last.SpeechStartAt * (cfg.SampleRate : Rat) < (st.currSample : Rat) + (speechPadSamples cfg : Rat)) ∧
  (st.triggered = true → st.tempEnd ≠ 0 →
    0 < st.tempEnd + (speechPadSamples cfg : Int) ∧
    ∀ pre last, segs = pre ++ [last] →
      last.SpeechStartAt * (cfg.SampleRate : Rat) < (st.tempEnd : Rat) + (speechPadSamples cfg : Rat))

/-! ## Basic facts about the windowing -/

theorem windowSize_pos (cfg : DetectorConfig) : 0 < windowSize cfg := by
  unfold windowSize
  split <;> norm_num

/-- Closed form of the loop-index sequence: the indices are
`i, i+w, i+2w, …`, of count `ceil((bound-i)/w)`. -/
theorem windowStartsAux_eq (w : Nat) (hw : 0 < w) :
    ∀ (n b i : Nat), b - i ≤ n →
      windowStartsAux w b i = (List.range ((b - i + w - 1) / w)).map (fun j => i + j * w) := by
  intro n
  induction n with
  | zero =>
    intro b i h
    rw [windowStartsAux, dif_neg (by omega)]
    have h0 : b - i = 0 := by omega
    rw [h0, Nat.div_eq_of_lt (by omega)]
    simp
  | succ n ih =>
    intro b i h
    by_cases hib : i < b
    · rw [windowStartsAux, dif_pos ⟨hw, hib⟩, ih b (i + w) (by omega)]
      have hnum : (b - i + w - 1) / w = (b - i - 1) / w + 1 := by
        have h1 : b - i + w - 1 = (b - i - 1) + 1 * w := by omega
        rw [h1, Nat.add_mul_div_right _ _ hw]
      have hnum2 : (b - (i + w) + w - 1) / w = (b - i - 1) / w := by
        by_cases hbw : b ≤ i + w
        · have h1 : b - (i + w) = 0 := by omega
          rw [h1, Nat.div_eq_of_lt (by omega), Nat.div_eq_of_lt (by omega)]
        · have h1 : b - (i + w) + w - 1 = b - i - 1 := by omega
          rw [h1]
      rw [hnum, hnum2, List.range_succ_eq_map]
      simp only [List.map_cons, List.map_map, Nat.zero_mul, Nat.add_zero]
      refine congrArg (List.cons i) (List.map_congr_left ?_)
      intro j _
      simp only [Function.comp_apply, Nat.succ_eq_add_one]
      have : (j + 1) * w = j * w + w := by ring
      omega
    · rw [windowStartsAux, dif_neg (by omega)]
      have h0 : b - i = 0 := by omega
      rw [h0, Nat.div_eq_of_lt (by omega)]
      simp

/-- The windows of `Detect`'s loop, in closed form: windows at offsets
`0, w, 2w, …`, of count `(len - 1) / w` when `w ≤ len`. -/
theorem windows_formula (w : Nat) (pcm : List Rat) (hw : 0 < w) (hlen : w ≤ pcm.length) :
    windows w pcm =
      (List.range ((pcm.length - 1) / w)).map (fun j => (pcm.drop (j * w)).take w) := by
  unfold windows
  rw [windowStartsAux_eq w hw (pcm.length - w) (pcm.length - w) 0 (by omega)]
  have h1 : pcm.length - w - 0 + w - 1 = pcm.length - 1 := by omega
  rw [h1, List.map_map]
  refine List.map_congr_left ?_
  intro j _
  simp

theorem windows_length (w : Nat) (pcm : List Rat) (hw : 0 < w) (hlen : w ≤ pcm.length) :
    (windows w pcm).length = (pcm.length - 1) / w := by
  rw [windows_formula w pcm hw hlen, List.length_map, List.length_range]

theorem windows_eq_nil_of_short (w : Nat) (pcm : List Rat) (h : pcm.length ≤ w) :
    windows w pcm = [] := by
  unfold windows
  rw [windowStartsAux, dif_neg (by omega)]
  rfl

theorem lt_length_of_windows_ne_nil (w : Nat) (pcm : List Rat) (h : windows w pcm ≠ []) :
    w < pcm.length := by
  by_contra hle
  exact h (windows_eq_nil_of_short w pcm (by omega))

theorem inferTrace_length (infer : List Rat → List Rat → Rat × List Rat) :
    ∀ (ws : List (List Rat)) (s : List Rat), (inferTrace infer ws s).length = ws.length := by
  intro ws
  induction ws with
  | nil => intro s; rfl
  | cons win rest ih => intro s; simp [inferTrace, ih]

/-! ## Branch lemmas for one segmentation step -/

theorem ite_neg_zero_eq_max (x : Rat) : (if x < 0 then 0 else x) = max 0 x := by
  rcases lt_or_le x 0 with h | h
  · rw [if_pos h, max_eq_left h.le]
  · rw [if_neg (not_lt.mpr h), max_eq_right h]

theorem hysteresis_margin_pos : (0 : Rat) < 0.15 := by norm_num

/-- Idle context, probability below threshold: only the cursor moves. -/
theorem segStep_idle_low (cfg : DetectorConfig) (p : Rat) (st : SegState) (segs : List Segment)
    (htr : st.triggered = false) (hp : ¬ cfg.Threshold ≤ p) :
    segStep cfg p st segs =
      (({ st with currSample := st.currSample + (windowSize cfg : Int) }, segs), none) := by
  simp [segStep, hp, htr]

/-- Idle context, probability at or above threshold: open a segment. -/
theorem segStep_trigger (cfg : DetectorConfig) (p : Rat) (st : SegState) (segs : List Segment)
    (htr : st.triggered = false) (hp : cfg.Threshold ≤ p) :
    segStep cfg p st segs =
      (({ currSample := st.currSample + (windowSize cfg : Int), triggered := true, tempEnd := 0 },
        segs ++ [{ SpeechStartAt := speechStartVal cfg (st.currSample + (windowSize cfg : Int)), SpeechEndAt := 0 }]), none) := by
  have h3 : ¬ p < cfg.Threshold - 0.15 := by
    have := hysteresis_margin_pos
    intro hc
    linarith
  by_cases hte : st.tempEnd = 0 <;>
    simp [segStep, hp, htr, hte, h3, ite_neg_zero_eq_max, speechStartVal]

/-- Triggered context, probability at or above threshold: cancel any
pending silence marker, nothing else. -/
theorem segStep_speech_high (cfg : DetectorConfig) (p : Rat) (st : SegState) (segs : List Segment)
    (htr : st.triggered = true) (hp : cfg.Threshold ≤ p) :
    segStep cfg p st segs =
      (({ currSample := st.currSample + (windowSize cfg : Int), triggered := true, tempEnd := 0 },
        segs), none) := by
  have h3 : ¬ p < cfg.Threshold - 0.15 := by
    have := hysteresis_margin_pos
    intro hc
    linarith
  by_cases hte : st.tempEnd = 0 <;>
    simp [segStep, hp, htr, hte, h3]

/-- Triggered context, probability in the hysteresis band: only the
cursor moves. -/
theorem segStep_band (cfg : DetectorConfig) (p : Rat) (st : SegState) (segs : List Segment)
    (htr : st.triggered = true) (h1 : ¬ cfg.Threshold ≤ p)
    (h2 : ¬ p < cfg.Threshold - 0.15) :
    segStep cfg p st segs =
      (({ st with currSample := st.currSample + (windowSize cfg : Int) }, segs), none) := by
  simp [segStep, h1, h2, htr]

/-- Triggered context, silence, no marker yet, minimum-silence not yet
met: set the marker to the advanced cursor. -/
theorem segStep_silence_mark (cfg : DetectorConfig) (p : Rat) (st : SegState) (segs : List Segment)
    (htr : st.triggered = true) (hp : p < cfg.Threshold - 0.15) (hte : st.tempEnd = 0)
    (hms : 0 < minSilenceSamples cfg) :
    segStep cfg p st segs =
      (({ currSample := st.currSample + (windowSize cfg : Int), triggered := true,
          tempEnd := st.currSample + (windowSize cfg : Int) }, segs), none) := by
  have h1 : ¬ cfg.Threshold ≤ p := by
    have := hysteresis_margin_pos
    intro hc
    linarith
  have hms2 : (0 : Int) < (minSilenceSamples cfg : Int) := by exact_mod_cast hms
  simp [segStep, h1, hp, htr, hte, hms2]

/-- Triggered context, silence, marker set, minimum-silence not yet
met: keep waiting. -/
theorem segStep_silence_wait (cfg : DetectorConfig) (p : Rat) (st : SegState) (segs : List Segment)
    (htr : st.triggered = true) (hp : p < cfg.Threshold - 0.15) (hte : st.tempEnd ≠ 0)
    (hwait : st.currSample + (windowSize cfg : Int) - st.tempEnd < (minSilenceSamples cfg : Int)) :
    segStep cfg p st segs =
      (({ st with currSample := st.currSample + (windowSize cfg : Int) }, segs), none) := by
  have h1 : ¬ cfg.Threshold ≤ p := by
    have := hysteresis_margin_pos
    intro hc
    linarith
  simp [segStep, h1, hp, htr, hte, hwait]

/-- Triggered context, silence, marker set, minimum-silence met, with an
open segment: confirm the last segment end. -/
theorem segStep_silence_confirm (cfg : DetectorConfig) (p : Rat) (st : SegState)
    (segs : List Segment)
    (htr : st.triggered = true) (hp : p < cfg.Threshold - 0.15) (hte : st.tempEnd ≠ 0)
    (hconf : (minSilenceSamples cfg : Int) ≤ st.currSample + (windowSize cfg : Int) - st.tempEnd)
    (hne : segs ≠ []) :
    segStep cfg p st segs =
      ((({ currSample := st.currSample + (windowSize cfg : Int), triggered := false, tempEnd := 0 }),
        setLastEnd segs (speechEndVal cfg st.tempEnd)), none) := by
  have h1 : ¬ cfg.Threshold ≤ p := by
    have := hysteresis_margin_pos
    intro hc
    linarith
  have hnw : ¬ st.currSample + (windowSize cfg : Int) - st.tempEnd < (minSilenceSamples cfg : Int) :=
    not_lt.mpr hconf
  simp [segStep, h1, hp, htr, hte, hnw, hne, speechEndVal]

/-- Triggered context, silence, marker set, minimum-silence met, but no
open segment: the inconsistent-state error. -/
theorem segStep_silence_confirm_empty (cfg : DetectorConfig) (p : Rat) (st : SegState)
    (htr : st.triggered = true) (hp : p < cfg.Threshold - 0.15) (hte : st.tempEnd ≠ 0)
    (hconf : (minSilenceSamples cfg : Int) ≤ st.currSample + (windowSize cfg : Int) - st.tempEnd) :
    segStep cfg p st [] =
      ((({ currSample := st.currSample + (windowSize cfg : Int), triggered := false, tempEnd := 0 }),
        []), some unexpectedSpeechEndErr) := by
  have h1 : ¬ cfg.Threshold ≤ p := by
    have := hysteresis_margin_pos
    intro hc
    linarith
  have hnw : ¬ st.currSample + (windowSize cfg : Int) - st.tempEnd < (minSilenceSamples cfg : Int) :=
    not_lt.mpr hconf
  simp [segStep, h1, hp, htr, hte, hnw]

/-- Triggered context, silence, no marker, zero minimum-silence, with an
open segment: mark and confirm in the same window. -/
theorem segStep_silence_mark_confirm (cfg : DetectorConfig) (p : Rat) (st : SegState)
    (segs : List Segment)
    (htr : st.triggered = true) (hp : p < cfg.Threshold - 0.15) (hte : st.tempEnd = 0)
    (hms : minSilenceSamples cfg = 0) (hne : segs ≠ []) :
    segStep cfg p st segs =
      ((({ currSample := st.currSample + (windowSize cfg : Int), triggered := false, tempEnd := 0 }),
        setLastEnd segs (speechEndVal cfg (st.currSample + (windowSize cfg : Int)))), none) := by
  have h1 : ¬ cfg.Threshold ≤ p := by
    have := hysteresis_margin_pos
    intro hc
    linarith
  simp [segStep, h1, hp, htr, hte, hms, hne, speechEndVal]

/-! ## Loop-level lemmas -/

theorem segLoop_nil (cfg : DetectorConfig) (st : SegState) (segs : List Segment) :
    segLoop cfg [] st segs = (st, Except.ok segs) := rfl

theorem segLoop_cons_none (cfg : DetectorConfig) (p : Rat) (rest : List Rat) (st st' : SegState)
    (segs segs' : List Segment) (h : segStep cfg p st segs = ((st', segs'), none)) :
    segLoop cfg (p :: rest) st segs = segLoop cfg rest st' segs' := by
  simp [segLoop, h]

theorem segLoop_cons_some (cfg : DetectorConfig) (p : Rat) (rest : List Rat) (st st' : SegState)
    (segs segs' : List Segment) (e : String) (h : segStep cfg p st segs = ((st', segs'), some e)) :
    segLoop cfg (p :: rest) st segs = (st', Except.error e) := by
  simp [segLoop, h]

theorem segLoop_append (cfg : DetectorConfig) (l1 l2 : List Rat) :
    ∀ (st : SegState) (segs : List Segment),
      segLoop cfg (l1 ++ l2) st segs =
        (match segLoop cfg l1 st segs with
         | (st', Except.ok segs') => segLoop cfg l2 st' segs'
         | (st', Except.error e) => (st', Except.error e)) := by
  induction l1 with
  | nil => intro st segs; rfl
  | cons p rest ih =>
    intro st segs
    rcases hstep : segStep cfg p st segs with ⟨⟨st1, segs1⟩, err⟩
    rcases err with _ | e
    · rw [List.cons_append, segLoop_cons_none cfg p (rest ++ l2) st st1 segs segs1 hstep,
        segLoop_cons_none cfg p rest st st1 segs segs1 hstep, ih]
    · rw [List.cons_append, segLoop_cons_some cfg p (rest ++ l2) st st1 segs segs1 e hstep,
        segLoop_cons_some cfg p rest st st1 segs segs1 e hstep]

set_option maxHeartbeats 1000000 in
/-- Every branch of one segmentation step advances the cursor by exactly
one window. -/
theorem segStep_cursor (cfg : DetectorConfig) (p : Rat) (st : SegState) (segs : List Segment) :
    ((segStep cfg p st segs).1.1).currSample = st.currSample + (windowSize cfg : Int) := by
  unfold segStep
  simp only []
  split_ifs <;> rfl

set_option maxHeartbeats 1000000 in
/-- The only error one segmentation step can produce is the
inconsistent-state error. -/
theorem segStep_error (cfg : DetectorConfig) (p : Rat) (st : SegState) (segs : List Segment)
    (r : SegState × List Segment) (e : String) (h : segStep cfg p st segs = (r, some e)) :
    e = unexpectedSpeechEndErr := by
  unfold segStep at h
  simp only [] at h
  split_ifs at h <;> simp_all

/-- On a successful run the segmentation loop advances the cursor by
one window per probability consumed. -/
theorem segLoop_cursor (cfg : DetectorConfig) (probs : List Rat) :
    ∀ (st : SegState) (segs segs' : List Segment),
      (segLoop cfg probs st segs).2 = Except.ok segs' →
      ((segLoop cfg probs st segs).1).currSample =
        st.currSample + (probs.length : Int) * (windowSize cfg : Int) := by
  induction probs with
  | nil => intro st segs segs' _; simp [segLoop_nil]
  | cons p rest ih =>
    intro st segs segs' hok
    rcases hstep : segStep cfg p st segs with ⟨⟨st1, segs1⟩, err⟩
    have hc : st1.currSample = st.currSample + (windowSize cfg : Int) := by
      have h2 := segStep_cursor cfg p st segs
      rw [hstep] at h2
      exact h2
    rcases err with _ | e
    · rw [segLoop_cons_none cfg p rest st st1 segs segs1 hstep] at hok ⊢
      rw [ih st1 segs1 segs' hok, hc]
      simp only [List.length_cons]
      push_cast
      ring
    · rw [segLoop_cons_some cfg p rest st st1 segs segs1 e hstep] at hok
      exact absurd hok (by simp)

/-- The only error the segmentation loop can produce is the
inconsistent-state error. -/
theorem segLoop_error (cfg : DetectorConfig) (probs : List Rat) :
    ∀ (st : SegState) (segs : List Segment) (e : String),
      (segLoop cfg probs st segs).2 = Except.error e → e = unexpectedSpeechEndErr := by
  induction probs with
  | nil => intro st segs e h; simp [segLoop_nil] at h
  | cons p rest ih =>
    intro st segs e h
    rcases hstep : segStep cfg p st segs with ⟨⟨st1, segs1⟩, err⟩
    rcases err with _ | e1
    · rw [segLoop_cons_none cfg p rest st st1 segs segs1 hstep] at h
      exact ih st1 segs1 e h
    · rw [segLoop_cons_some cfg p rest st st1 segs segs1 e1 hstep] at h
      have he : e1 = e := by
        simpa using h
      rw [← he]
      exact segStep_error cfg p st segs (st1, segs1) e1 hstep

/-- `detectLoop` is `segLoop` on the probability trace: the inference
threading only determines the probabilities and the recurrent state,
never the segmentation decisions. -/
theorem detectLoop_eq_segLoop (infer : List Rat → List Rat → Rat × List Rat)
    (cfg : DetectorConfig) :
    ∀ (ws : List (List Rat)) (dc : DetectorContext) (segs : List Segment),
      segOf (detectLoop infer cfg ws dc segs).1 =
          (segLoop cfg (inferTrace infer ws dc.state) (segOf dc) segs).1 ∧
        (detectLoop infer cfg ws dc segs).2 =
          (segLoop cfg (inferTrace infer ws dc.state) (segOf dc) segs).2 := by
  intro ws
  induction ws with
  | nil => intro dc segs; exact ⟨rfl, rfl⟩
  | cons win rest ih =>
    intro dc segs
    rcases hpr : infer win dc.state with ⟨p, ns⟩
    have htr : inferTrace infer (win :: rest) dc.state = p :: inferTrace infer rest ns := by
      simp [inferTrace, hpr]
    have hso : segOf ({ dc with state := ns } : DetectorContext) = segOf dc := rfl
    rcases hstep : segStep cfg p (segOf dc) segs with ⟨⟨st1, segs1⟩, err⟩
    rcases err with _ | e
    · have hleft : detectLoop infer cfg (win :: rest) dc segs =
          detectLoop infer cfg rest (withSeg { dc with state := ns } st1) segs1 := by
        simp [detectLoop, hpr, hso, hstep]
      have hright : segLoop cfg (inferTrace infer (win :: rest) dc.state) (segOf dc) segs =
          segLoop cfg (inferTrace infer rest ns) st1 segs1 := by
        rw [htr]
        exact segLoop_cons_none cfg p _ (segOf dc) st1 segs segs1 hstep
      rw [hleft, hright]
      have hst : (withSeg { dc with state := ns } st1).state = ns := rfl
      have hseg : segOf (withSeg { dc with state := ns } st1) = st1 := rfl
      have := ih (withSeg { dc with state := ns } st1) segs1
      rw [hst, hseg] at this
      exact this
    · have hleft : detectLoop infer cfg (win :: rest) dc segs =
          (withSeg { dc with state := ns } st1, Except.error e) := by
        simp [detectLoop, hpr, hso, hstep]
      have hright : segLoop cfg (inferTrace infer (win :: rest) dc.state) (segOf dc) segs =
          (st1, Except.error e) := by
        rw [htr]
        exact segLoop_cons_some cfg p _ (segOf dc) st1 segs segs1 e hstep
      rw [hleft, hright]
      exact ⟨rfl, rfl⟩

/-! ## Invariant machinery for the segment-shape properties -/

theorem speechStartVal_nonneg (cfg : DetectorConfig) (c : Int) : 0 ≤ speechStartVal cfg c :=
  le_max_left _ _

theorem speechStartVal_mono (cfg : DetectorConfig) {c c' : Int} (h : c ≤ c') :
    speechStartVal cfg c ≤ speechStartVal cfg c' := by
  unfold speechStartVal
  have hsrQ : (0 : Rat) ≤ (cfg.SampleRate : Rat) := by positivity
  apply max_le_max le_rfl
  apply div_le_div_of_nonneg_right ?_ hsrQ
  have hQ : (c : Rat) ≤ (c' : Rat) := by exact_mod_cast h
  push_cast
  linarith

theorem speechStartVal_mul_lt (cfg : DetectorConfig) (c : Int) (hsr : 0 < cfg.SampleRate)
    (hc : 0 < c) :
    speechStartVal cfg c * (cfg.SampleRate : Rat) < (c : Rat) + (speechPadSamples cfg : Rat) := by
  have hsrQ : (0 : Rat) < (cfg.SampleRate : Rat) := by exact_mod_cast hsr
  have hw : 0 < windowSize cfg := windowSize_pos cfg
  have hcQ : (0 : Rat) < (c : Rat) := by exact_mod_cast hc
  have hpadQ : (0 : Rat) ≤ (speechPadSamples cfg : Rat) := by positivity
  have hwQ : (0 : Rat) < (windowSize cfg : Rat) := by exact_mod_cast hw
  unfold speechStartVal
  rw [max_mul_of_nonneg _ _ hsrQ.le, zero_mul, div_mul_cancel₀ _ (ne_of_gt hsrQ)]
  apply max_lt
  · linarith
  · push_cast
    linarith

theorem startsMono_append_last {segs : List Segment} {s : Segment} (h : startsMono segs)
    (hall : ∀ t ∈ segs, t.SpeechStartAt ≤ s.SpeechStartAt) : startsMono (segs ++ [s]) := by
  unfold startsMono at h ⊢
  rw [List.pairwise_append]
  refine ⟨h, List.pairwise_singleton _ _, ?_⟩
  intro a ha b hb
  rw [List.mem_singleton] at hb
  subst hb
  exact hall a ha

theorem startsMono_set_last (pre : List Segment) (last last' : Segment)
    (hs : last'.SpeechStartAt = last.SpeechStartAt) (h : startsMono (pre ++ [last])) :
    startsMono (pre ++ [last']) := by
  unfold startsMono at h ⊢
  rw [List.pairwise_append] at h ⊢
  refine ⟨h.1, List.pairwise_singleton _ _, ?_⟩
  intro a ha b hb
  rw [List.mem_singleton] at hb
  subst hb
  rw [hs]
  exact h.2.2 a ha last (List.mem_singleton_self last)

theorem setLastEnd_append (pre : List Segment) (last : Segment) (e : Rat) :
    setLastEnd (pre ++ [last]) e = pre ++ [{ last with SpeechEndAt := e }] := by
  induction pre with
  | nil => rfl
  | cons s pre ih =>
    cases pre with
    | nil => rfl
    | cons s2 pre2 =>
      show s :: setLastEnd ((s2 :: pre2) ++ [last]) e = _
      rw [ih]
      rfl

theorem last_eq_of_append_singleton {α : Type} {l1 l2 : List α} {a b : α}
    (h : l1 ++ [a] = l2 ++ [b]) : a = b := by
  have h1 := congrArg (fun l => l.getLast?) h
  simpa using h1

/-- One segmentation step preserves the invariant (on the non-error
result). -/
theorem segStep_inv (cfg : DetectorConfig) (p : Rat) (st : SegState) (segs : List Segment)
    (hsr : 0 < cfg.SampleRate) (hinv : Inv cfg st segs)
    (st' : SegState) (segs' : List Segment)
    (h : segStep cfg p st segs = ((st', segs'), none)) :
    Inv cfg st' segs' := by
  obtain ⟨hG, hA, hB, hC, hD, hE, hF⟩ := hinv
  have hw : 0 < windowSize cfg := windowSize_pos cfg
  have hwZ : (0 : Int) < (windowSize cfg : Int) := by exact_mod_cast hw
  have hwQ : (0 : Rat) < (windowSize cfg : Rat) := by exact_mod_cast hw
  have hpadZ : (0 : Int) ≤ (speechPadSamples cfg : Int) := by positivity
  have hpadQ : (0 : Rat) ≤ (speechPadSamples cfg : Rat) := by positivity
  have hsrQ : (0 : Rat) < (cfg.SampleRate : Rat) := by exact_mod_cast hsr
  have hstep : st.currSample ≤ st.currSample + (windowSize cfg : Int) := by omega
  have hcmono := speechStartVal_mono cfg hstep
  rcases htr : st.triggered with _ | _
  · by_cases hp : cfg.Threshold ≤ p
    · -- idle, speech: open a segment
      rw [segStep_trigger cfg p st segs htr hp] at h
      injection h with h1 h3
      injection h1 with h1 h2
      subst h1
      subst h2
      unfold Inv
      dsimp only
      refine ⟨by omega, ?_, ?_, ?_, ?_, ?_, ?_⟩
      · intro s hs
        rcases List.mem_append.mp hs with hs | hs
        · exact hA s hs
        · rw [List.mem_singleton] at hs
          subst hs
          exact speechStartVal_nonneg cfg _
      · apply startsMono_append_last hB
        intro t ht
        exact (hD t ht).trans hcmono
      · intro s hs
        rcases List.mem_append.mp hs with hs | hs
        · exact hC s hs
        · rw [List.mem_singleton] at hs
          subst hs
          intro habs
          exact absurd rfl habs
      · intro s hs
        rcases List.mem_append.mp hs with hs | hs
        · exact (hD s hs).trans hcmono
        · rw [List.mem_singleton] at hs
          subst hs
          exact le_rfl
      · intro _
        refine ⟨segs, _, rfl, rfl, ?_⟩
        exact speechStartVal_mul_lt cfg _ hsr (by omega)
      · intro _ hte
        exact absurd rfl hte
    · -- idle, quiet: only the cursor moves
      rw [segStep_idle_low cfg p st segs htr hp] at h
      injection h with h1 h3
      injection h1 with h1 h2
      subst h1
      subst h2
      unfold Inv
      dsimp only
      refine ⟨by omega, hA, hB, hC, fun s hs => (hD s hs).trans hcmono, ?_, ?_⟩
      · intro habs
        rw [htr] at habs
        exact absurd habs (by simp)
      · intro habs
        rw [htr] at habs
        exact absurd habs (by simp)
  · obtain ⟨pre, last, hsegs, hend, hlt⟩ := hE htr
    subst hsegs
    have hne : pre ++ [last] ≠ [] := by simp
    have hcQ : ((st.currSample : Rat) + (speechPadSamples cfg : Rat)) ≤
        (((st.currSample + (windowSize cfg : Int) : Int) : Rat) + (speechPadSamples cfg : Rat)) := by
      push_cast
      linarith
    by_cases hp : cfg.Threshold ≤ p
    · -- triggered, speech: cancel any marker
      rw [segStep_speech_high cfg p st (pre ++ [last]) htr hp] at h
      injection h with h1 h3
      injection h1 with h1 h2
      subst h1
      subst h2
      unfold Inv
      dsimp only
      refine ⟨by omega, hA, hB, hC, fun s hs => (hD s hs).trans hcmono, ?_, ?_⟩
      · intro _
        exact ⟨pre, last, rfl, hend, lt_of_lt_of_le hlt hcQ⟩
      · intro _ hte
        exact absurd rfl hte
    · by_cases hp2 : p < cfg.Threshold - 0.15
      · by_cases hte : st.tempEnd = 0
        · by_cases hms : 0 < minSilenceSamples cfg
          · -- triggered, silence, set the marker
            rw [segStep_silence_mark cfg p st (pre ++ [last]) htr hp2 hte hms] at h
            injection h with h1 h3
            injection h1 with h1 h2
            subst h1
            subst h2
            unfold Inv
            dsimp only
            refine ⟨by omega, hA, hB, hC, fun s hs => (hD s hs).trans hcmono, ?_, ?_⟩
            · intro _
              exact ⟨pre, last, rfl, hend, lt_of_lt_of_le hlt hcQ⟩
            · intro _ _
              refine ⟨by omega, ?_⟩
              intro pre2 last2 hsegs2
              rw [← last_eq_of_append_singleton hsegs2]
              exact lt_of_lt_of_le hlt hcQ
          · -- triggered, silence, zero minimum silence: confirm immediately
            have hms0 : minSilenceSamples cfg = 0 := by omega
            rw [segStep_silence_mark_confirm cfg p st (pre ++ [last]) htr hp2 hte hms0 hne,
              setLastEnd_append] at h
            injection h with h1 h3
            injection h1 with h1 h2
            subst h1
            subst h2
            unfold Inv
            dsimp only
            have hlt2 : last.SpeechStartAt <
                speechEndVal cfg (st.currSample + (windowSize cfg : Int)) := by
              unfold speechEndVal
              rw [lt_div_iff₀ hsrQ]
              push_cast
              linarith
            refine ⟨by omega, ?_, ?_, ?_, ?_, ?_, ?_⟩
            · intro s hs
              rcases List.mem_append.mp hs with hs | hs
              · exact hA s (List.mem_append_left _ hs)
              · rw [List.mem_singleton] at hs
                subst hs
                exact hA last (List.mem_append_right _ (List.mem_singleton_self last))
            · exact startsMono_set_last pre last _ rfl hB
            · intro s hs
              rcases List.mem_append.mp hs with hs | hs
              · exact hC s (List.mem_append_left _ hs)
              · rw [List.mem_singleton] at hs
                subst hs
                intro _
                exact hlt2
            · intro s hs
              rcases List.mem_append.mp hs with hs | hs
              · exact (hD s (List.mem_append_left _ hs)).trans hcmono
              · rw [List.mem_singleton] at hs
                subst hs
                exact (hD last (List.mem_append_right _ (List.mem_singleton_self last))).trans hcmono
            · intro habs
              exact absurd habs (by simp)
            · intro habs
              exact absurd habs (by simp)
        · obtain ⟨htePos, hteBound⟩ := hF htr hte
          by_cases hwt : st.currSample + (windowSize cfg : Int) - st.tempEnd <
              (minSilenceSamples cfg : Int)
          · -- triggered, silence, marker set, keep waiting
            rw [segStep_silence_wait cfg p st (pre ++ [last]) htr hp2 hte hwt] at h
            injection h with h1 h3
            injection h1 with h1 h2
            subst h1
            subst h2
            unfold Inv
            dsimp only
            refine ⟨by omega, hA, hB, hC, fun s hs => (hD s hs).trans hcmono, ?_, ?_⟩
            · intro _
              exact ⟨pre, last, rfl, hend, lt_of_lt_of_le hlt hcQ⟩
            · intro _ _
              exact ⟨htePos, hteBound⟩
          · -- triggered, silence, marker set, confirm the end
            rw [segStep_silence_confirm cfg p st (pre ++ [last]) htr hp2 hte (not_lt.mp hwt) hne,
              setLastEnd_append] at h
            injection h with h1 h3
            injection h1 with h1 h2
            subst h1
            subst h2
            unfold Inv
            dsimp only
            have hlt2 : last.SpeechStartAt < speechEndVal cfg st.tempEnd := by
              unfold speechEndVal
              rw [lt_div_iff₀ hsrQ]
              have := hteBound pre last rfl
              push_cast
              push_cast at this
              linarith
            refine ⟨by omega, ?_, ?_, ?_, ?_, ?_, ?_⟩
            · intro s hs
              rcases List.mem_append.mp hs with hs | hs
              · exact hA s (List.mem_append_left _ hs)
              · rw [List.mem_singleton] at hs
                subst hs
                exact hA last (List.mem_append_right _ (List.mem_singleton_self last))
            · exact startsMono_set_last pre last _ rfl hB
            · intro s hs
              rcases List.mem_append.mp hs with hs | hs
              · exact hC s (List.mem_append_left _ hs)
              · rw [List.mem_singleton] at hs
                subst hs
                intro _
                exact hlt2
            · intro s hs
              rcases List.mem_append.mp hs with hs | hs
              · exact (hD s (List.mem_append_left _ hs)).trans hcmono
              · rw [List.mem_singleton] at hs
                subst hs
                exact (hD last (List.mem_append_right _ (List.mem_singleton_self last))).trans hcmono
            · intro habs
              exact absurd habs (by simp)
            · intro habs
              exact absurd habs (by simp)
      · -- triggered, hysteresis band: nothing changes
        rw [segStep_band cfg p st (pre ++ [last]) htr hp hp2] at h
        injection h with h1 h3
        injection h1 with h1 h2
        subst h1
        subst h2
        unfold Inv
        dsimp only
        refine ⟨by omega, hA, hB, hC, fun s hs => (hD s hs).trans hcmono, ?_, ?_⟩
        · intro _
          exact ⟨pre, last, rfl, hend, lt_of_lt_of_le hlt hcQ⟩
        · intro _ hte2
          exact hF htr hte2

/-- The segmentation loop preserves the invariant on success. -/
theorem segLoop_inv (cfg : DetectorConfig) (hsr : 0 < cfg.SampleRate) (probs : List Rat) :
    ∀ (st : SegState) (segs : List Segment), Inv cfg st segs →
      ∀ (segs' : List Segment), (segLoop cfg probs st segs).2 = Except.ok segs' →
        Inv cfg (segLoop cfg probs st segs).1 segs' := by
  induction probs with
  | nil =>
    intro st segs hinv segs' hok
    rw [segLoop_nil] at hok ⊢
    have : segs = segs' := by simpa using hok
    subst this
    exact hinv
  | cons p rest ih =>
    intro st segs hinv segs' hok
    rcases hstep : segStep cfg p st segs with ⟨⟨st1, segs1⟩, err⟩
    rcases err with _ | e
    · rw [segLoop_cons_none cfg p rest st st1 segs segs1 hstep] at hok ⊢
      exact ih st1 segs1 (segStep_inv cfg p st segs hsr hinv st1 segs1 hstep) segs' hok
    · rw [segLoop_cons_some cfg p rest st st1 segs segs1 e hstep] at hok
      exact absurd hok (by simp)

theorem detectLoop_nil (infer : List Rat → List Rat → Rat × List Rat) (cfg : DetectorConfig)
    (dc : DetectorContext) (segs : List Segment) :
    detectLoop infer cfg [] dc segs = (dc, Except.ok segs) := rfl

theorem detectLoop_cons_none (infer : List Rat → List Rat → Rat × List Rat)
    (cfg : DetectorConfig) (win : List Rat) (rest : List (List Rat)) (dc : DetectorContext)
    (segs : List Segment) (st1 : SegState) (segs1 : List Segment)
    (h : segStep cfg (infer win dc.state).1 (segOf dc) segs = ((st1, segs1), none)) :
    detectLoop infer cfg (win :: rest) dc segs =
      detectLoop infer cfg rest (withSeg { dc with state := (infer win dc.state).2 } st1) segs1 := by
  have hso : segOf ({ dc with state := (infer win dc.state).2 } : DetectorContext) = segOf dc := rfl
  simp [detectLoop, hso, h]

theorem detectLoop_cons_some (infer : List Rat → List Rat → Rat × List Rat)
    (cfg : DetectorConfig) (win : List Rat) (rest : List (List Rat)) (dc : DetectorContext)
    (segs : List Segment) (st1 : SegState) (segs1 : List Segment) (e : String)
    (h : segStep cfg (infer win dc.state).1 (segOf dc) segs = ((st1, segs1), some e)) :
    detectLoop infer cfg (win :: rest) dc segs =
      (withSeg { dc with state := (infer win dc.state).2 } st1, Except.error e) := by
  have hso : segOf ({ dc with state := (infer win dc.state).2 } : DetectorContext) = segOf dc := rfl
  simp [detectLoop, hso, h]

/-- While triggered, probabilities inside the hysteresis band leave
everything but the cursor unchanged. -/
theorem segLoop_band (cfg : DetectorConfig) (probs : List Rat) :
    ∀ (st : SegState) (segs : List Segment), st.triggered = true →
      (∀ p ∈ probs, ¬ cfg.Threshold ≤ p ∧ ¬ p < cfg.Threshold - 0.15) →
      segLoop cfg probs st segs =
        ({ st with currSample := st.currSample + (probs.length : Int) * (windowSize cfg : Int) },
          Except.ok segs) := by
  induction probs with
  | nil =>
    intro st segs htr _
    rw [segLoop_nil]
    simp
  | cons p rest ih =>
    intro st segs htr hband
    obtain ⟨h1, h2⟩ := hband p (List.mem_cons_self p rest)
    rw [segLoop_cons_none cfg p rest st _ segs segs (segStep_band cfg p st segs htr h1 h2)]
    rw [ih ⟨st.currSample + (windowSize cfg : Int), st.triggered, st.tempEnd⟩ segs htr
      (fun q hq => hband q (List.mem_cons_of_mem p hq))]
    dsimp only
    have harith : st.currSample + (windowSize cfg : Int) +
        (rest.length : Int) * (windowSize cfg : Int) =
        st.currSample + ((p :: rest).length : Int) * (windowSize cfg : Int) := by
      simp only [List.length_cons]
      push_cast
      ring
    rw [harith]

/-! ## The claims -/

/-- C6: for every pcm input strictly shorter than the configured window
size, each of Detect, IsSpeech and IsSpeechQuick returns the "not
enough samples" error, produces no segments (no boolean verdict), and
leaves the DetectorContext unchanged.  (The SharedModel configuration is
an explicit immutable argument in the embedding, so it is unchanged by
construction.) -/
theorem claim_C6 (infer : List Rat → List Rat → Rat × List Rat) (cfg : DetectorConfig)
    (pcm : List Rat) (dc : DetectorContext) (maxWindows : Int)
    (h : pcm.length < windowSize cfg) :
    Detect infer cfg pcm dc = (dc, Except.error notEnoughSamplesErr) ∧
    IsSpeech infer cfg pcm dc = (dc, Except.error notEnoughSamplesErr) ∧
    IsSpeechQuick infer cfg pcm maxWindows dc = (dc, Except.error notEnoughSamplesErr) := by
  refine ⟨?_, ?_, ?_⟩ <;> simp [Detect, IsSpeech, IsSpeechQuick, h]

/-- Witness for C6 at a concrete short input. -/
theorem claim_C6_witness :
    ([] : List Rat).length < windowSize scenarioCfg ∧
    Detect (constInfer 1) scenarioCfg [] newContext =
      (newContext, Except.error notEnoughSamplesErr) ∧
    IsSpeech (constInfer 1) scenarioCfg [] newContext =
      (newContext, Except.error notEnoughSamplesErr) ∧
    IsSpeechQuick (constInfer 1) scenarioCfg [] 0 newContext =
      (newContext, Except.error notEnoughSamplesErr) := by
  have h : ([] : List Rat).length < windowSize scenarioCfg := by
    norm_num [windowSize, scenarioCfg]
  exact ⟨h, claim_C6 (constInfer 1) scenarioCfg [] newContext 0 h⟩

/-- C8: Reset returns all per-context fields to the initial zero state
of a freshly created context, so replaying the same audio after Reset
yields exactly the result of a first run on a fresh context from the
same SharedModel and configuration.  (The shared probability trace of
the two runs is justified by the determinism of the inference
capability: equal recurrent state and equal windows give equal
probabilities, which the common `infer` argument expresses.) -/
theorem claim_C8 (dc : DetectorContext) :
    Reset dc = newContext ∧
    ∀ (infer : List Rat → List Rat → Rat × List Rat) (cfg : DetectorConfig) (pcm : List Rat),
      Detect infer cfg pcm (Reset dc) = Detect infer cfg pcm newContext := by
  have h : Reset dc = newContext := rfl
  exact ⟨h, fun infer cfg pcm => by rw [h]⟩

/-- C9: a zero or negative max_windows cap makes IsSpeechQuick behave
exactly as with the default cap of 5 (same boolean, same error, same
context). -/
theorem claim_C9 (infer : List Rat → List Rat → Rat × List Rat) (cfg : DetectorConfig)
    (pcm : List Rat) (dc : DetectorContext) (maxWindows : Int) (h : maxWindows ≤ 0) :
    IsSpeechQuick infer cfg pcm maxWindows dc = IsSpeechQuick infer cfg pcm 5 dc := by
  by_cases hlen : pcm.length < windowSize cfg
  · simp [IsSpeechQuick, hlen]
  · simp [IsSpeechQuick, hlen, h, show ¬ (5 : Int) ≤ 0 by norm_num]

/-- Witness for C9 at a concrete non-positive cap. -/
theorem claim_C9_witness :
    (-3 : Int) ≤ 0 ∧
    IsSpeechQuick (constInfer 1) scenarioCfg [] (-3) newContext =
      IsSpeechQuick (constInfer 1) scenarioCfg [] 5 newContext := by
  exact ⟨by norm_num, claim_C9 (constInfer 1) scenarioCfg [] newContext (-3) (by norm_num)⟩

/-- C5: whenever the segmentation engine confirms a segment end
(probability below threshold-0.15 while triggered, minimum-silence met)
but no segment has been opened in the current Detect call's output
list, Detect returns the "unexpected speech end" error rather than
silently ignoring the inconsistency.  (The first processed window of a
call with the context already triggered and the silence requirement met
at that window is exactly this situation: the call's output list is
still empty.) -/
theorem claim_C5 (infer : List Rat → List Rat → Rat × List Rat) (cfg : DetectorConfig)
    (pcm : List Rat) (dc : DetectorContext) (w0 : List Rat) (ws : List (List Rat))
    (hwin : windows (windowSize cfg) pcm = w0 :: ws)
    (htr : dc.triggered = true)
    (hte : dc.tempEnd ≠ 0)
    (hp : (infer w0 dc.state).1 < cfg.Threshold - 0.15)
    (hsil : (minSilenceSamples cfg : Int) ≤ dc.currSample + (windowSize cfg : Int) - dc.tempEnd) :
    (Detect infer cfg pcm dc).2 = Except.error unexpectedSpeechEndErr := by
  have hlen : ¬ pcm.length < windowSize cfg := by
    have hlt := lt_length_of_windows_ne_nil (windowSize cfg) pcm (by rw [hwin]; simp)
    omega
  unfold Detect
  rw [if_neg hlen, hwin]
  rcases hpr : infer w0 dc.state with ⟨p, ns⟩
  have hp2 : p < cfg.Threshold - 0.15 := by rw [hpr] at hp; exact hp
  have hso : segOf ({ dc with state := ns } : DetectorContext) = segOf dc := rfl
  have hstep := segStep_silence_confirm_empty cfg p (segOf dc) htr hp2 hte hsil
  simp [detectLoop, hpr, hso, hstep]

/-- Witness for C5: a context entering Detect triggered with a stale
silence marker and enough elapsed silence errors on the first window. -/
theorem claim_C5_witness :
    windows (windowSize scenarioCfg) (List.replicate 600 (0 : Rat)) =
        [List.replicate 512 (0 : Rat)] ∧
    ((⟨List.replicate stateLen 0, List.replicate contextLen 0, 2048, true, 100⟩ :
        DetectorContext)).triggered = true ∧
    ((⟨List.replicate stateLen 0, List.replicate contextLen 0, 2048, true, 100⟩ :
        DetectorContext)).tempEnd ≠ 0 ∧
    (constInfer 0 (List.replicate 512 (0 : Rat)) (List.replicate stateLen 0)).1 <
        scenarioCfg.Threshold - 0.15 ∧
    (minSilenceSamples scenarioCfg : Int) ≤ 2048 + (windowSize scenarioCfg : Int) - 100 ∧
    (Detect (constInfer 0) scenarioCfg (List.replicate 600 (0 : Rat))
        ⟨List.replicate stateLen 0, List.replicate contextLen 0, 2048, true, 100⟩).2 =
      Except.error unexpectedSpeechEndErr := by
  have hws : windowSize scenarioCfg = 512 := by norm_num [windowSize, scenarioCfg]
  have hmin : minSilenceSamples scenarioCfg = 1600 := by
    norm_num [minSilenceSamples, scenarioCfg]
  have hwin : windows (windowSize scenarioCfg) (List.replicate 600 (0 : Rat)) =
      [List.replicate 512 (0 : Rat)] := by
    rw [hws, windows_formula 512 _ (by norm_num) (by norm_num [List.length_replicate])]
    rw [show ((List.replicate 600 (0 : Rat)).length - 1) / 512 = 1 by norm_num,
      show List.range 1 = [0] from by simp [List.range_succ]]
    simp only [List.map_cons, List.map_nil, Nat.zero_mul, List.drop_zero, List.take_replicate]
    rw [show (512 ⊓ 600 : Nat) = 512 from by omega]
  have hp : (constInfer 0 (List.replicate 512 (0 : Rat)) (List.replicate stateLen 0)).1 <
      scenarioCfg.Threshold - 0.15 := by
    norm_num [constInfer, scenarioCfg]
  have hsil : (minSilenceSamples scenarioCfg : Int) ≤ 2048 + (windowSize scenarioCfg : Int) - 100 := by
    rw [hws, hmin]
    norm_num
  refine ⟨hwin, rfl, by norm_num, hp, hsil, ?_⟩
  exact claim_C5 (constInfer 0) scenarioCfg (List.replicate 600 (0 : Rat)) _
    (List.replicate 512 (0 : Rat)) [] hwin rfl (by norm_num) hp hsil

/-- C7: SetThreshold sets the shared configuration's Threshold to v and
leaves every other field unchanged; GetConfig then returns Threshold v;
and any window call issued by any context against the updated shared
configuration classifies windows against v (nothing is cached at
context creation: a single-window Detect opens no segment exactly when
the window's probability is below v). -/
theorem claim_C7 (cfg : DetectorConfig) (v : Rat) :
    (SetThreshold cfg v).Threshold = v ∧
    (SetThreshold cfg v).SampleRate = cfg.SampleRate ∧
    (SetThreshold cfg v).MinSilenceDurationMs = cfg.MinSilenceDurationMs ∧
    (SetThreshold cfg v).SpeechPadMs = cfg.SpeechPadMs ∧
    GetConfig (SetThreshold cfg v) = SetThreshold cfg v ∧
    ∀ (infer : List Rat → List Rat → Rat × List Rat) (pcm : List Rat) (dc : DetectorContext),
      dc.triggered = false → pcm.length = windowSize cfg + 1 →
      ((Detect infer (SetThreshold cfg v) pcm dc).2 = Except.ok [] ↔
        (infer (pcm.take (windowSize cfg)) dc.state).1 < v) := by
  refine ⟨rfl, rfl, rfl, rfl, rfl, ?_⟩
  intro infer pcm dc htr hlen
  have hwseq : windowSize (SetThreshold cfg v) = windowSize cfg := rfl
  have hwpos := windowSize_pos cfg
  have hlen2 : ¬ pcm.length < windowSize (SetThreshold cfg v) := by rw [hwseq]; omega
  have hwin : windows (windowSize (SetThreshold cfg v)) pcm = [pcm.take (windowSize cfg)] := by
    rw [hwseq, windows_formula (windowSize cfg) pcm hwpos (by omega)]
    have hq : (pcm.length - 1) / windowSize cfg = 1 := by
      rw [hlen]
      simp [Nat.div_self hwpos]
    rw [hq, show List.range 1 = [0] from by simp [List.range_succ]]
    simp
  unfold Detect
  rw [if_neg hlen2, hwin]
  rcases hpr : infer (pcm.take (windowSize cfg)) dc.state with ⟨p, ns⟩
  have hso : segOf ({ dc with state := ns } : DetectorContext) = segOf dc := rfl
  by_cases hp : p < v
  · have hnp : ¬ (SetThreshold cfg v).Threshold ≤ p := not_le.mpr hp
    have hstep := segStep_idle_low (SetThreshold cfg v) p (segOf dc) [] htr hnp
    simp [detectLoop, hpr, hso, hstep, hp]
  · have hvp : (SetThreshold cfg v).Threshold ≤ p := not_lt.mp hp
    have hstep := segStep_trigger (SetThreshold cfg v) p (segOf dc) [] htr hvp
    simp [detectLoop, hpr, hso, hstep, hp]

/-- Witness for C7 at a concrete configuration, threshold and window. -/
theorem claim_C7_witness :
    (newContext.triggered = false ∧
      (List.replicate 513 (0 : Rat)).length = windowSize scenarioCfg + 1) ∧
    (SetThreshold scenarioCfg (7/10)).Threshold = 7/10 ∧
    ((Detect (constInfer (4/5)) (SetThreshold scenarioCfg (7/10))
        (List.replicate 513 (0 : Rat)) newContext).2 = Except.ok [] ↔
      (constInfer (4/5) ((List.replicate 513 (0 : Rat)).take (windowSize scenarioCfg))
        newContext.state).1 < 7/10) := by
  have h := claim_C7 scenarioCfg (7/10)
  have hlen : (List.replicate 513 (0 : Rat)).length = windowSize scenarioCfg + 1 := by
    norm_num [windowSize, scenarioCfg]
  exact ⟨⟨rfl, hlen⟩, h.1, h.2.2.2.2.2 (constInfer (4/5)) (List.replicate 513 (0 : Rat))
    newContext rfl hlen⟩

/-- C10 (implicit, from the loop bound `i < len(pcm)-windowSize`): for
an input of exactly k complete windows (k ≥ 1), Detect accepts the
input but iterates only k-1 windows — the final complete window is
never inferred — and in particular a one-window input yields zero
inference calls, an empty segment list, no error, and an unchanged
context (cursor included). -/
theorem claim_C10 (infer : List Rat → List Rat → Rat × List Rat) (cfg : DetectorConfig)
    (pcm : List Rat) (dc : DetectorContext) (k : Nat) (hk : 1 ≤ k)
    (hlen : pcm.length = k * windowSize cfg) :
    (windows (windowSize cfg) pcm).length = k - 1 ∧
    (Detect infer cfg pcm dc).2 ≠ Except.error notEnoughSamplesErr ∧
    (k = 1 → Detect infer cfg pcm dc = (dc, Except.ok [])) := by
  have hw := windowSize_pos cfg
  have hwle : windowSize cfg ≤ pcm.length := by
    have h1 : 1 * windowSize cfg ≤ k * windowSize cfg := Nat.mul_le_mul_right _ hk
    omega
  have hdiv : (k * windowSize cfg - 1) / windowSize cfg = k - 1 := by
    rcases k with _ | k2
    · omega
    · have hmul : (k2 + 1) * windowSize cfg - 1 = windowSize cfg - 1 + k2 * windowSize cfg := by
        have h2 : (k2 + 1) * windowSize cfg = k2 * windowSize cfg + windowSize cfg := by ring
        omega
      rw [hmul, Nat.add_mul_div_right _ _ hw, Nat.div_eq_of_lt (by omega)]
      omega
  refine ⟨?_, ?_, ?_⟩
  · rw [windows_length _ _ hw hwle, hlen, hdiv]
  · intro habs
    unfold Detect at habs
    rw [if_neg (by omega)] at habs
    obtain ⟨-, hfac2⟩ := detectLoop_eq_segLoop infer cfg (windows (windowSize cfg) pcm) dc []
    rw [hfac2] at habs
    have := segLoop_error cfg _ (segOf dc) [] notEnoughSamplesErr habs
    exact absurd this (by decide)
  · intro hk1
    subst hk1
    have hlen1 : pcm.length = windowSize cfg := by omega
    unfold Detect
    rw [if_neg (by omega), windows_eq_nil_of_short _ _ (by omega)]
    rfl

/-- Witness for C10 at a one-window input. -/
theorem claim_C10_witness :
    (1 ≤ 1 ∧ (List.replicate 512 (0 : Rat)).length = 1 * windowSize scenarioCfg) ∧
    (windows (windowSize scenarioCfg) (List.replicate 512 (0 : Rat))).length = 0 ∧
    Detect (constInfer 1) scenarioCfg (List.replicate 512 (0 : Rat)) newContext =
      (newContext, Except.ok []) := by
  have hlen : (List.replicate 512 (0 : Rat)).length = 1 * windowSize scenarioCfg := by
    norm_num [windowSize, scenarioCfg]
  have h := claim_C10 (constInfer 1) scenarioCfg (List.replicate 512 (0 : Rat)) newContext 1
    le_rfl hlen
  exact ⟨⟨le_rfl, hlen⟩, h.1, h.2.2 rfl⟩

/-- C1, counterexample: at an input of exactly one complete window
(len = 512 = window_size at 16 kHz), the claim's floor(len/w) = 1
window is NOT processed: Detect runs zero iterations and returns no
segments even under an inference capability that reports probability 1
(which would open a segment on any processed window). -/
theorem claim_C1_counterexample :
    512 / windowSize scenarioCfg = 1 ∧
    (windows (windowSize scenarioCfg) (List.replicate 512 (0 : Rat))).length = 0 ∧
    Detect (constInfer 1) scenarioCfg (List.replicate 512 (0 : Rat)) newContext =
      (newContext, Except.ok []) := by
  have hws : windowSize scenarioCfg = 512 := by norm_num [windowSize, scenarioCfg]
  refine ⟨by rw [hws], ?_, ?_⟩
  · rw [windows_eq_nil_of_short _ _ (by rw [hws]; norm_num)]
    rfl
  · unfold Detect
    rw [if_neg (by rw [hws]; norm_num), windows_eq_nil_of_short _ _ (by rw [hws]; norm_num)]
    rfl

/-- C1, amended: for every pcm input with at least window_size samples,
Detect iterates non-overlapping windows at offsets 0, w, 2w, …,
processing floor((len-1)/w) windows — one fewer than floor(len/w) when
len is an exact multiple of w, because the final complete window is
dropped along with any trailing partial window — and on a successful
run advances the sample cursor by exactly one window size per processed
window. -/
theorem claim_C1_amended (cfg : DetectorConfig) (pcm : List Rat)
    (hlen : windowSize cfg ≤ pcm.length) :
    windows (windowSize cfg) pcm =
      (List.range ((pcm.length - 1) / windowSize cfg)).map
        (fun j => (pcm.drop (j * windowSize cfg)).take (windowSize cfg)) ∧
    (windows (windowSize cfg) pcm).length = (pcm.length - 1) / windowSize cfg ∧
    ∀ (infer : List Rat → List Rat → Rat × List Rat) (dc : DetectorContext)
      (segs : List Segment),
      (Detect infer cfg pcm dc).2 = Except.ok segs →
      ((Detect infer cfg pcm dc).1).currSample =
        dc.currSample +
          (((pcm.length - 1) / windowSize cfg : Nat) : Int) * (windowSize cfg : Int) := by
  have hw := windowSize_pos cfg
  refine ⟨windows_formula _ _ hw hlen, windows_length _ _ hw hlen, ?_⟩
  intro infer dc segs hok
  have hg : ¬ pcm.length < windowSize cfg := by omega
  unfold Detect at hok ⊢
  rw [if_neg hg] at hok ⊢
  obtain ⟨hfac1, hfac2⟩ := detectLoop_eq_segLoop infer cfg (windows (windowSize cfg) pcm) dc []
  rw [hfac2] at hok
  have h1 : ((detectLoop infer cfg (windows (windowSize cfg) pcm) dc []).1).currSample =
      ((segLoop cfg (inferTrace infer (windows (windowSize cfg) pcm) dc.state)
        (segOf dc) []).1).currSample :=
    congrArg SegState.currSample hfac1
  rw [h1, segLoop_cursor cfg _ (segOf dc) [] segs hok,
    inferTrace_length infer _ dc.state, windows_length _ _ hw hlen]
  rfl

/-- Witness for C1 (amended) at a concrete input of 600 samples. -/
theorem claim_C1_amended_witness :
    windowSize scenarioCfg ≤ (List.replicate 600 (0 : Rat)).length ∧
    (windows (windowSize scenarioCfg) (List.replicate 600 (0 : Rat))).length =
      ((List.replicate 600 (0 : Rat)).length - 1) / windowSize scenarioCfg ∧
    ((Detect (constInfer 0) scenarioCfg (List.replicate 600 (0 : Rat)) newContext).1).currSample =
      newContext.currSample +
        ((((List.replicate 600 (0 : Rat)).length - 1) / windowSize scenarioCfg : Nat) : Int) *
          (windowSize scenarioCfg : Int) := by
  have hlen : windowSize scenarioCfg ≤ (List.replicate 600 (0 : Rat)).length := by
    norm_num [windowSize, scenarioCfg]
  have h := claim_C1_amended scenarioCfg (List.replicate 600 (0 : Rat)) hlen
  have hok : (Detect (constInfer 0) scenarioCfg (List.replicate 600 (0 : Rat)) newContext).2 =
      Except.ok [] := by
    have hws : windowSize scenarioCfg = 512 := by norm_num [windowSize, scenarioCfg]
    have hwin : windows (windowSize scenarioCfg) (List.replicate 600 (0 : Rat)) =
        [List.replicate 512 (0 : Rat)] := by
      rw [hws, windows_formula 512 _ (by norm_num) (by norm_num [List.length_replicate])]
      rw [show ((List.replicate 600 (0 : Rat)).length - 1) / 512 = 1 by norm_num,
        show List.range 1 = [0] from by simp [List.range_succ]]
      simp only [List.map_cons, List.map_nil, Nat.zero_mul, List.drop_zero, List.take_replicate]
      rw [show (512 ⊓ 600 : Nat) = 512 from by omega]
    unfold Detect
    rw [if_neg (by omega), hwin]
    have hstep := segStep_idle_low scenarioCfg 0 (segOf newContext) [] rfl
      (by norm_num [scenarioCfg])
    rw [detectLoop_cons_none (constInfer 0) scenarioCfg _ [] newContext [] _ [] hstep]
    rfl
  exact ⟨hlen, h.2.1, h.2.2 (constInfer 0) newContext [] hok⟩

/-- C3: for every probability sequence fed through one Detect call
(from a context that is not mid-segment, with a non-negative cursor, at
a positive sample rate), the speech_start_at values of the returned
segments are non-negative and monotonically non-decreasing in output
order, and every segment with an end set satisfies
speech_end_at > speech_start_at. -/
theorem claim_C3 (infer : List Rat → List Rat → Rat × List Rat) (cfg : DetectorConfig)
    (pcm : List Rat) (dc : DetectorContext)
    (htr : dc.triggered = false) (hc : 0 ≤ dc.currSample) (hsr : 0 < cfg.SampleRate)
    (segs : List Segment) (hok : (Detect infer cfg pcm dc).2 = Except.ok segs) :
    (∀ s ∈ segs, 0 ≤ s.SpeechStartAt) ∧
    startsMono segs ∧
    (∀ s ∈ segs, s.SpeechEndAt ≠ 0 → s.SpeechStartAt < s.SpeechEndAt) := by
  by_cases hg : pcm.length < windowSize cfg
  · unfold Detect at hok
    rw [if_pos hg] at hok
    exact absurd hok (by simp)
  · unfold Detect at hok
    rw [if_neg hg] at hok
    obtain ⟨-, hfac2⟩ := detectLoop_eq_segLoop infer cfg (windows (windowSize cfg) pcm) dc []
    rw [hfac2] at hok
    have hinv0 : Inv cfg (segOf dc) [] := by
      unfold Inv
      refine ⟨hc, by simp, ?_, by simp, by simp, ?_, ?_⟩
      · unfold startsMono
        exact List.Pairwise.nil
      · intro habs
        rw [show (segOf dc).triggered = dc.triggered from rfl, htr] at habs
        exact absurd habs (by simp)
      · intro habs _
        rw [show (segOf dc).triggered = dc.triggered from rfl, htr] at habs
        exact absurd habs (by simp)
    obtain ⟨-, hA, hB, hC, -, -, -⟩ :=
      segLoop_inv cfg hsr _ (segOf dc) [] hinv0 segs hok
    exact ⟨hA, hB, hC⟩

/-- Witness for C3 at a concrete run (one processed window, prob 0). -/
theorem claim_C3_witness :
    (newContext.triggered = false ∧ (0 : Int) ≤ newContext.currSample ∧
      0 < scenarioCfg.SampleRate ∧
      (Detect (constInfer 0) scenarioCfg (List.replicate 600 (0 : Rat)) newContext).2 =
        Except.ok []) ∧
    ((∀ s ∈ ([] : List Segment), 0 ≤ s.SpeechStartAt) ∧
      startsMono ([] : List Segment) ∧
      (∀ s ∈ ([] : List Segment), s.SpeechEndAt ≠ 0 → s.SpeechStartAt < s.SpeechEndAt)) := by
  have hok : (Detect (constInfer 0) scenarioCfg (List.replicate 600 (0 : Rat)) newContext).2 =
      Except.ok [] := by
    have hws : windowSize scenarioCfg = 512 := by norm_num [windowSize, scenarioCfg]
    have hwin : windows (windowSize scenarioCfg) (List.replicate 600 (0 : Rat)) =
        [List.replicate 512 (0 : Rat)] := by
      rw [hws, windows_formula 512 _ (by norm_num) (by norm_num [List.length_replicate])]
      rw [show ((List.replicate 600 (0 : Rat)).length - 1) / 512 = 1 by norm_num,
        show List.range 1 = [0] from by simp [List.range_succ]]
      simp only [List.map_cons, List.map_nil, Nat.zero_mul, List.drop_zero, List.take_replicate]
      rw [show (512 ⊓ 600 : Nat) = 512 from by omega]
    unfold Detect
    rw [if_neg (by rw [hws]; norm_num [List.length_replicate]), hwin]
    have hstep := segStep_idle_low scenarioCfg 0 (segOf newContext) [] rfl
      (by norm_num [scenarioCfg])
    rw [detectLoop_cons_none (constInfer 0) scenarioCfg _ [] newContext [] _ [] hstep]
    rfl
  refine ⟨⟨rfl, le_rfl, by norm_num [scenarioCfg], hok⟩, ?_⟩
  exact claim_C3 (constInfer 0) scenarioCfg (List.replicate 600 (0 : Rat)) newContext rfl
    le_rfl (by norm_num [scenarioCfg]) [] hok

/-- C4: for a probability stream that meets the threshold for exactly
the first processed window and thereafter stays strictly between
threshold-0.15 and threshold forever, Detect never confirms a segment
end: it returns exactly one segment whose speech_end_at remains unset
(zero), and the pending-silence-end marker is never even set (it stays
0, so the minimum-silence requirement is never met). -/
theorem claim_C4 (infer : List Rat → List Rat → Rat × List Rat) (cfg : DetectorConfig)
    (pcm : List Rat) (p0 : Rat) (rest : List Rat)
    (htrace : inferTrace infer (windows (windowSize cfg) pcm) newContext.state = p0 :: rest)
    (hp0 : cfg.Threshold ≤ p0)
    (hband : ∀ p ∈ rest, cfg.Threshold - 0.15 < p ∧ p < cfg.Threshold) :
    (Detect infer cfg pcm newContext).2 =
      Except.ok [{ SpeechStartAt := 0, SpeechEndAt := 0 }] ∧
    ((Detect infer cfg pcm newContext).1).tempEnd = 0 := by
  have hwnn : windows (windowSize cfg) pcm ≠ [] := by
    intro habs
    rw [habs] at htrace
    simp [inferTrace] at htrace
  have hg : ¬ pcm.length < windowSize cfg := by
    have hlt := lt_length_of_windows_ne_nil _ _ hwnn
    omega
  have hband2 : ∀ p ∈ rest, ¬ cfg.Threshold ≤ p ∧ ¬ p < cfg.Threshold - 0.15 := by
    intro p hp
    exact ⟨not_le.mpr (hband p hp).2, not_lt.mpr (le_of_lt (hband p hp).1)⟩
  have hsv : speechStartVal cfg ((0 : Int) + (windowSize cfg : Int)) = 0 := by
    unfold speechStartVal
    apply max_eq_left
    apply div_nonpos_of_nonpos_of_nonneg
    · push_cast
      have hpad : (0 : Rat) ≤ (speechPadSamples cfg : Rat) := by positivity
      linarith
    · positivity
  have hstep := segStep_trigger cfg p0 ⟨0, false, 0⟩ [] rfl hp0
  dsimp only at hstep
  rw [hsv] at hstep
  have hseq : segLoop cfg (p0 :: rest) ⟨0, false, 0⟩ [] =
      (⟨(0 : Int) + (windowSize cfg : Int) + (rest.length : Int) * (windowSize cfg : Int),
        true, 0⟩, Except.ok [{ SpeechStartAt := 0, SpeechEndAt := 0 }]) := by
    rw [segLoop_cons_none cfg p0 rest _ _ _ _ hstep,
      segLoop_band cfg rest _ _ rfl hband2]
    dsimp only
    rw [List.nil_append]
  obtain ⟨hfac1, hfac2⟩ := detectLoop_eq_segLoop infer cfg (windows (windowSize cfg) pcm)
    newContext []
  rw [htrace, show segOf newContext = ⟨0, false, 0⟩ from rfl, hseq] at hfac1 hfac2
  constructor
  · unfold Detect
    rw [if_neg hg, hfac2]
  · unfold Detect
    rw [if_neg hg]
    exact congrArg SegState.tempEnd hfac1

/-- Witness for C4 at a concrete 8 kHz run with trace [4/5, 2/5]. -/
theorem claim_C4_witness :
    (inferTrace (lengthProbeInfer (4/5) (2/5) 256 256)
        (windows (windowSize lowRateCfg) (List.replicate 768 (0 : Rat))) newContext.state =
          (4/5 : Rat) :: [2/5] ∧
      lowRateCfg.Threshold ≤ (4/5 : Rat) ∧
      ∀ p ∈ [(2/5 : Rat)], lowRateCfg.Threshold - 0.15 < p ∧ p < lowRateCfg.Threshold) ∧
    (Detect (lengthProbeInfer (4/5) (2/5) 256 256) lowRateCfg (List.replicate 768 (0 : Rat))
        newContext).2 = Except.ok [{ SpeechStartAt := 0, SpeechEndAt := 0 }] ∧
    ((Detect (lengthProbeInfer (4/5) (2/5) 256 256) lowRateCfg (List.replicate 768 (0 : Rat))
        newContext).1).tempEnd = 0 := by
  have hws : windowSize lowRateCfg = 256 := by norm_num [windowSize, lowRateCfg]
  have hwin : windows (windowSize lowRateCfg) (List.replicate 768 (0 : Rat)) =
      [List.replicate 256 (0 : Rat), List.replicate 256 (0 : Rat)] := by
    rw [hws, windows_formula 256 _ (by norm_num) (by norm_num [List.length_replicate])]
    rw [show ((List.replicate 768 (0 : Rat)).length - 1) / 256 = 2 by norm_num]
    rw [show List.range 2 = [0, 1] from by simp [List.range_succ]]
    simp only [List.map_cons, List.map_nil, Nat.zero_mul, Nat.one_mul, List.drop_zero,
      List.drop_replicate, List.take_replicate]
    rw [show (256 ⊓ 768 : Nat) = 256 from by omega,
      show (768 - 256 : Nat) = 512 from by omega,
      show (256 ⊓ 512 : Nat) = 256 from by omega]
  have htrace : inferTrace (lengthProbeInfer (4/5) (2/5) 256 256)
      (windows (windowSize lowRateCfg) (List.replicate 768 (0 : Rat))) newContext.state =
        (4/5 : Rat) :: [2/5] := by
    have h1 : lengthProbeInfer (4/5) (2/5) 256 256 (List.replicate 256 (0 : Rat))
        (List.replicate stateLen (0 : Rat)) =
          ((4/5 : Rat), List.replicate stateLen (0 : Rat) ++ [0]) := by
      unfold lengthProbeInfer
      rw [if_pos]
      left
      simp only [List.length_replicate, stateLen]
    have h2 : lengthProbeInfer (4/5) (2/5) 256 256 (List.replicate 256 (0 : Rat))
        (List.replicate stateLen (0 : Rat) ++ [0]) =
          ((2/5 : Rat), (List.replicate stateLen (0 : Rat) ++ [0]) ++ [0]) := by
      unfold lengthProbeInfer
      rw [if_neg]
      simp only [List.length_append, List.length_replicate, List.length_cons,
        List.length_nil, stateLen]
      omega
    rw [hwin]
    show inferTrace _ _ (List.replicate stateLen 0) = _
    simp only [inferTrace]
    rw [h1]
    dsimp only
    rw [h2]
  have hp0 : lowRateCfg.Threshold ≤ (4/5 : Rat) := by norm_num [lowRateCfg]
  have hband : ∀ p ∈ [(2/5 : Rat)], lowRateCfg.Threshold - 0.15 < p ∧ p < lowRateCfg.Threshold := by
    intro p hp
    rw [List.mem_singleton] at hp
    subst hp
    norm_num [lowRateCfg]
  have h := claim_C4 (lengthProbeInfer (4/5) (2/5) 256 256) lowRateCfg
    (List.replicate 768 (0 : Rat)) (4/5) [2/5] htrace hp0 hband
  exact ⟨⟨htrace, hp0, hband⟩, h.1, h.2⟩

/-- C2: with sample_rate=16000, threshold=0.5,
min_silence_duration_ms=100 (1600 samples) and speech_pad_ms=30 (480
samples), a Detect call whose processed windows have probabilities
[0.1, 0.8, 0.8, 0.1] followed by four low-probability windows (below
threshold-0.15, accumulating 2048 ≥ 1600 silent samples) yields exactly
one segment with speech_start_at = (1024-512-480)/16000 = 0.002 s and a
confirmed speech_end_at = (2048+480)/16000 = 0.158 s, set once the
accumulated silence reaches the 1600-sample requirement. -/
theorem claim_C2 (infer : List Rat → List Rat → Rat × List Rat) (pcm : List Rat)
    (p5 p6 p7 p8 : Rat)
    (htrace : inferTrace infer (windows (windowSize scenarioCfg) pcm) newContext.state =
      [1/10, 4/5, 4/5, 1/10, p5, p6, p7, p8])
    (h5 : p5 < 7/20) (h6 : p6 < 7/20) (h7 : p7 < 7/20) (h8 : p8 < 7/20) :
    (Detect infer scenarioCfg pcm newContext).2 =
      Except.ok [{ SpeechStartAt := 1/500, SpeechEndAt := 79/500 }] := by
  have hwnn : windows (windowSize scenarioCfg) pcm ≠ [] := by
    intro habs
    rw [habs] at htrace
    simp [inferTrace] at htrace
  have hg : ¬ pcm.length < windowSize scenarioCfg := by
    have hlt := lt_length_of_windows_ne_nil _ _ hwnn
    omega
  have hofr : scenarioCfg.Threshold - 0.15 = 7/20 := by norm_num [scenarioCfg]
  have h5a : p5 < scenarioCfg.Threshold - 0.15 := by rw [hofr]; exact h5
  have h6a : p6 < scenarioCfg.Threshold - 0.15 := by rw [hofr]; exact h6
  have h7a : p7 < scenarioCfg.Threshold - 0.15 := by rw [hofr]; exact h7
  have h8a : p8 < scenarioCfg.Threshold - 0.15 := by rw [hofr]; exact h8
  have hsv : speechStartVal scenarioCfg 1024 = 1/500 := by
    unfold speechStartVal
    rw [show (((1024 : Int) - (windowSize scenarioCfg : Int) -
        (speechPadSamples scenarioCfg : Int) : Int) : Rat) / (scenarioCfg.SampleRate : Rat) =
        1/500 from by norm_num [windowSize, speechPadSamples, scenarioCfg]]
    exact max_eq_right (by norm_num)
  have hev : speechEndVal scenarioCfg 2048 = 79/500 := by
    unfold speechEndVal
    norm_num [speechPadSamples, scenarioCfg]
  have e1 : segStep scenarioCfg (1/10) ⟨0, false, 0⟩ [] = ((⟨512, false, 0⟩, []), none) := by
    rw [segStep_idle_low scenarioCfg (1/10) ⟨0, false, 0⟩ [] rfl (by norm_num [scenarioCfg])]
    dsimp only
    rw [show (0 : Int) + (windowSize scenarioCfg : Int) = 512 from by
      norm_num [windowSize, scenarioCfg]]
  have e2 : segStep scenarioCfg (4/5) ⟨512, false, 0⟩ [] =
      ((⟨1024, true, 0⟩, [{ SpeechStartAt := (1/500 : Rat), SpeechEndAt := 0 }]), none) := by
    rw [segStep_trigger scenarioCfg (4/5) ⟨512, false, 0⟩ [] rfl (by norm_num [scenarioCfg])]
    dsimp only
    rw [show (512 : Int) + (windowSize scenarioCfg : Int) = 1024 from by
      norm_num [windowSize, scenarioCfg], hsv, List.nil_append]
  have e3 : segStep scenarioCfg (4/5) ⟨1024, true, 0⟩
      [{ SpeechStartAt := (1/500 : Rat), SpeechEndAt := 0 }] =
      ((⟨1536, true, 0⟩, [{ SpeechStartAt := (1/500 : Rat), SpeechEndAt := 0 }]), none) := by
    rw [segStep_speech_high scenarioCfg (4/5) ⟨1024, true, 0⟩ _ rfl (by norm_num [scenarioCfg])]
    dsimp only
    rw [show (1024 : Int) + (windowSize scenarioCfg : Int) = 1536 from by
      norm_num [windowSize, scenarioCfg]]
  have e4 : segStep scenarioCfg (1/10) ⟨1536, true, 0⟩
      [{ SpeechStartAt := (1/500 : Rat), SpeechEndAt := 0 }] =
      ((⟨2048, true, 2048⟩, [{ SpeechStartAt := (1/500 : Rat), SpeechEndAt := 0 }]), none) := by
    rw [segStep_silence_mark scenarioCfg (1/10) ⟨1536, true, 0⟩ _ rfl
      (by rw [hofr]; norm_num) rfl (by norm_num [minSilenceSamples, scenarioCfg])]
    dsimp only
    rw [show (1536 : Int) + (windowSize scenarioCfg : Int) = 2048 from by
      norm_num [windowSize, scenarioCfg]]
  have e5 : segStep scenarioCfg p5 ⟨2048, true, 2048⟩
      [{ SpeechStartAt := (1/500 : Rat), SpeechEndAt := 0 }] =
      ((⟨2560, true, 2048⟩, [{ SpeechStartAt := (1/500 : Rat), SpeechEndAt := 0 }]), none) := by
    rw [segStep_silence_wait scenarioCfg p5 ⟨2048, true, 2048⟩ _ rfl h5a (by norm_num)
      (by norm_num [windowSize, minSilenceSamples, scenarioCfg])]
    dsimp only
    rw [show (2048 : Int) + (windowSize scenarioCfg : Int) = 2560 from by
      norm_num [windowSize, scenarioCfg]]
  have e6 : segStep scenarioCfg p6 ⟨2560, true, 2048⟩
      [{ SpeechStartAt := (1/500 : Rat), SpeechEndAt := 0 }] =
      ((⟨3072, true, 2048⟩, [{ SpeechStartAt := (1/500 : Rat), SpeechEndAt := 0 }]), none) := by
    rw [segStep_silence_wait scenarioCfg p6 ⟨2560, true, 2048⟩ _ rfl h6a (by norm_num)
      (by norm_num [windowSize, minSilenceSamples, scenarioCfg])]
    dsimp only
    rw [show (2560 : Int) + (windowSize scenarioCfg : Int) = 3072 from by
      norm_num [windowSize, scenarioCfg]]
  have e7 : segStep scenarioCfg p7 ⟨3072, true, 2048⟩
      [{ SpeechStartAt := (1/500 : Rat), SpeechEndAt := 0 }] =
      ((⟨3584, true, 2048⟩, [{ SpeechStartAt := (1/500 : Rat), SpeechEndAt := 0 }]), none) := by
    rw [segStep_silence_wait scenarioCfg p7 ⟨3072, true, 2048⟩ _ rfl h7a (by norm_num)
      (by norm_num [windowSize, minSilenceSamples, scenarioCfg])]
    dsimp only
    rw [show (3072 : Int) + (windowSize scenarioCfg : Int) = 3584 from by
      norm_num [windowSize, scenarioCfg]]
  have e8 : segStep scenarioCfg p8 ⟨3584, true, 2048⟩
      [{ SpeechStartAt := (1/500 : Rat), SpeechEndAt := 0 }] =
      ((⟨4096, false, 0⟩, [{ SpeechStartAt := (1/500 : Rat), SpeechEndAt := (79/500 : Rat) }]),
        none) := by
    rw [segStep_silence_confirm scenarioCfg p8 ⟨3584, true, 2048⟩ _ rfl h8a (by norm_num)
      (by norm_num [windowSize, minSilenceSamples, scenarioCfg]) (by simp)]
    dsimp only
    rw [show (3584 : Int) + (windowSize scenarioCfg : Int) = 4096 from by
      norm_num [windowSize, scenarioCfg], hev]
    rfl
  have hseq : segLoop scenarioCfg [1/10, 4/5, 4/5, 1/10, p5, p6, p7, p8] ⟨0, false, 0⟩ [] =
      (⟨4096, false, 0⟩,
        Except.ok [{ SpeechStartAt := (1/500 : Rat), SpeechEndAt := (79/500 : Rat) }]) := by
    rw [segLoop_cons_none _ _ _ _ _ _ _ e1, segLoop_cons_none _ _ _ _ _ _ _ e2,
      segLoop_cons_none _ _ _ _ _ _ _ e3, segLoop_cons_none _ _ _ _ _ _ _ e4,
      segLoop_cons_none _ _ _ _ _ _ _ e5, segLoop_cons_none _ _ _ _ _ _ _ e6,
      segLoop_cons_none _ _ _ _ _ _ _ e7, segLoop_cons_none _ _ _ _ _ _ _ e8, segLoop_nil]
  obtain ⟨-, hfac2⟩ := detectLoop_eq_segLoop infer scenarioCfg
    (windows (windowSize scenarioCfg) pcm) newContext []
  rw [htrace, show segOf newContext = ⟨0, false, 0⟩ from rfl, hseq] at hfac2
  unfold Detect
  rw [if_neg hg, hfac2]

/-- Windows of a constant input are just constant windows. -/
theorem windows_replicate (w n : Nat) (q : Rat) (hw : 0 < w) (hn : w ≤ n) :
    windows w (List.replicate n q) = List.replicate ((n - 1) / w) (List.replicate w q) := by
  rw [windows_formula w _ hw (by simpa using hn), List.length_replicate]
  rw [List.eq_replicate_iff]
  constructor
  · simp
  · intro b hb
    rw [List.mem_map] at hb
    obtain ⟨j, hj, hfj⟩ := hb
    rw [List.mem_range] at hj
    have hjw : (j + 1) * w ≤ n := by
      have h1 : j + 1 ≤ (n - 1) / w := hj
      have h2 : (j + 1) * w ≤ ((n - 1) / w) * w := Nat.mul_le_mul_right w h1
      have h3 : ((n - 1) / w) * w ≤ n - 1 := Nat.div_mul_le_self (n - 1) w
      omega
    rw [← hfj, List.drop_replicate, List.take_replicate]
    have hmin : w ⊓ (n - j * w) = w := by
      have h4 : (j + 1) * w = j * w + w := by ring
      omega
    rw [hmin]

/-- Witness for C2: a concrete 16 kHz run of nine fed windows (eight
processed) with trace [0.1, 0.8, 0.8, 0.1, 0.1, 0.1, 0.1, 0.1]. -/
theorem claim_C2_witness :
    inferTrace (lengthProbeInfer (4/5) (1/10) 257 258)
        (windows (windowSize scenarioCfg) (List.replicate 4608 (0 : Rat))) newContext.state =
      [1/10, 4/5, 4/5, 1/10, 1/10, 1/10, 1/10, 1/10] ∧
    (1/10 : Rat) < 7/20 ∧
    (Detect (lengthProbeInfer (4/5) (1/10) 257 258) scenarioCfg (List.replicate 4608 (0 : Rat))
        newContext).2 = Except.ok [{ SpeechStartAt := 1/500, SpeechEndAt := 79/500 }] := by
  have hws : windowSize scenarioCfg = 512 := by norm_num [windowSize, scenarioCfg]
  have hwin : windows (windowSize scenarioCfg) (List.replicate 4608 (0 : Rat)) =
      List.replicate 8 (List.replicate 512 (0 : Rat)) := by
    rw [hws, windows_replicate 512 4608 0 (by norm_num) (by norm_num)]
  have c1 : lengthProbeInfer (4/5) (1/10) 257 258 (List.replicate 512 (0 : Rat))
      (List.replicate stateLen (0 : Rat)) =
        ((1/10 : Rat), (List.replicate stateLen (0 : Rat) ++ [0])) := by
    unfold lengthProbeInfer
    rw [if_neg]
    simp only [List.length_append, List.length_replicate, List.length_cons,
      List.length_nil, stateLen]
    omega
  have c2 : lengthProbeInfer (4/5) (1/10) 257 258 (List.replicate 512 (0 : Rat))
      (List.replicate stateLen (0 : Rat) ++ [0]) =
        ((4/5 : Rat), ((List.replicate stateLen (0 : Rat) ++ [0]) ++ [0])) := by
    unfold lengthProbeInfer
    rw [if_pos]
    refine Or.inl ?_
    simp only [List.length_append, List.length_replicate, List.length_cons,
      List.length_nil, stateLen]
  have c3 : lengthProbeInfer (4/5) (1/10) 257 258 (List.replicate 512 (0 : Rat))
      ((List.replicate stateLen (0 : Rat) ++ [0]) ++ [0]) =
        ((4/5 : Rat), (((List.replicate stateLen (0 : Rat) ++ [0]) ++ [0]) ++ [0])) := by
    unfold lengthProbeInfer
    rw [if_pos]
    refine Or.inr ?_
    simp only [List.length_append, List.length_replicate, List.length_cons,
      List.length_nil, stateLen]
  have c4 : lengthProbeInfer (4/5) (1/10) 257 258 (List.replicate 512 (0 : Rat))
      (((List.replicate stateLen (0 : Rat) ++ [0]) ++ [0]) ++ [0]) =
        ((1/10 : Rat), ((((List.replicate stateLen (0 : Rat) ++ [0]) ++ [0]) ++ [0]) ++ [0])) := by
    unfold lengthProbeInfer
    rw [if_neg]
    simp only [List.length_append, List.length_replicate, List.length_cons,
      List.length_nil, stateLen]
    omega
  have c5 : lengthProbeInfer (4/5) (1/10) 257 258 (List.replicate 512 (0 : Rat))
      ((((List.replicate stateLen (0 : Rat) ++ [0]) ++ [0]) ++ [0]) ++ [0]) =
        ((1/10 : Rat), (((((List.replicate stateLen (0 : Rat) ++ [0]) ++ [0]) ++ [0]) ++ [0]) ++ [0])) := by
    unfold lengthProbeInfer
    rw [if_neg]
    simp only [List.length_append, List.length_replicate, List.length_cons,
      List.length_nil, stateLen]
    omega
  have c6 : lengthProbeInfer (4/5) (1/10) 257 258 (List.replicate 512 (0 : Rat))
      (((((List.replicate stateLen (0 : Rat) ++ [0]) ++ [0]) ++ [0]) ++ [0]) ++ [0]) =
        ((1/10 : Rat), ((((((List.replicate stateLen (0 : Rat) ++ [0]) ++ [0]) ++ [0]) ++ [0]) ++ [0]) ++ [0])) := by
    unfold lengthProbeInfer
    rw [if_neg]
    simp only [List.length_append, List.length_replicate, List.length_cons,
      List.length_nil, stateLen]
    omega
  have c7 : lengthProbeInfer (4/5) (1/10) 257 258 (List.replicate 512 (0 : Rat))
      ((((((List.replicate stateLen (0 : Rat) ++ [0]) ++ [0]) ++ [0]) ++ [0]) ++ [0]) ++ [0]) =
        ((1/10 : Rat), (((((((List.replicate stateLen (0 : Rat) ++ [0]) ++ [0]) ++ [0]) ++ [0]) ++ [0]) ++ [0]) ++ [0])) := by
    unfold lengthProbeInfer
    rw [if_neg]
    simp only [List.length_append, List.length_replicate, List.length_cons,
      List.length_nil, stateLen]
    omega
  have c8 : lengthProbeInfer (4/5) (1/10) 257 258 (List.replicate 512 (0 : Rat))
      (((((((List.replicate stateLen (0 : Rat) ++ [0]) ++ [0]) ++ [0]) ++ [0]) ++ [0]) ++ [0]) ++ [0]) =
        ((1/10 : Rat), ((((((((List.replicate stateLen (0 : Rat) ++ [0]) ++ [0]) ++ [0]) ++ [0]) ++ [0]) ++ [0]) ++ [0]) ++ [0])) := by
    unfold lengthProbeInfer
    rw [if_neg]
    simp only [List.length_append, List.length_replicate, List.length_cons,
      List.length_nil, stateLen]
    omega
  have htrace : inferTrace (lengthProbeInfer (4/5) (1/10) 257 258)
      (windows (windowSize scenarioCfg) (List.replicate 4608 (0 : Rat))) newContext.state =
        [1/10, 4/5, 4/5, 1/10, 1/10, 1/10, 1/10, 1/10] := by
    rw [hwin]
    show inferTrace _ _ (List.replicate stateLen 0) = _
    rw [show List.replicate 8 (List.replicate 512 (0 : Rat)) =
      [List.replicate 512 (0 : Rat), List.replicate 512 (0 : Rat), List.replicate 512 (0 : Rat),
        List.replicate 512 (0 : Rat), List.replicate 512 (0 : Rat), List.replicate 512 (0 : Rat),
        List.replicate 512 (0 : Rat), List.replicate 512 (0 : Rat)] from rfl]
    simp only [inferTrace]
    rw [c1]
    dsimp only
    rw [c2]
    dsimp only
    rw [c3]
    dsimp only
    rw [c4]
    dsimp only
    rw [c5]
    dsimp only
    rw [c6]
    dsimp only
    rw [c7]
    dsimp only
    rw [c8]
  refine ⟨htrace, by norm_num, ?_⟩
  exact claim_C2 (lengthProbeInfer (4/5) (1/10) 257 258) (List.replicate 4608 (0 : Rat))
    (1/10) (1/10) (1/10) (1/10) htrace (by norm_num) (by norm_num) (by norm_num) (by norm_num)

end Speech
